import Mathlib

/-!
Verification development for the DroneComms wire protocol
(Recon repository, `SRC/Modules/DJI-Drone-Interface/DroneComms.cpp` and
`DroneInterface.hpp`).

Shallow embedding conventions:
* a `std::vector<uint8_t>` buffer is a `List Nat` whose entries are bytes
  (the `(uint8_t)` casts of the source appear as `% 256`);
* machine integers are `Nat` with explicit `% 2 ^ w` at every point where
  the source performs a narrowing cast or where unsigned wrap-around can
  occur;
* `float` / `double` values are carried as their IEEE-754 bit patterns
  (`Nat` below `2 ^ 32` / `2 ^ 64`).  The source transports floating-point
  fields as raw bit patterns through the integer encoders, so the codec
  itself is exact on bit patterns; the arithmetic the source performs on
  floating values (radian/degree conversion, yaw wrapping) is embedded by
  an executable IEEE-754 binary32/binary64 model (round to nearest, ties
  to even) further below;
* functions receiving a `std::vector<uint8_t>::const_iterator` are modelled
  by an explicit cursor position into the byte list.
-/

set_option maxRecDepth 40000

-- ****************************************************************************
-- Standard-type field encoders (DroneComms.cpp, encodeField_*)
-- ****************************************************************************

/-- Bytes appended by `encodeField_uint8` (the `(uint8_t)` cast is `% 256`). -/
def encU8 (x : Nat) : List Nat := [x % 256]

/-- Bytes appended by `encodeField_uint16`: most significant byte first. -/
def encU16 (x : Nat) : List Nat := [x / 2 ^ 8 % 256, x % 256]

/-- Bytes appended by `encodeField_uint32`: most significant byte first. -/
def encU32 (x : Nat) : List Nat :=
  [x / 2 ^ 24 % 256, x / 2 ^ 16 % 256, x / 2 ^ 8 % 256, x % 256]

/-- Bytes appended by `encodeField_uint64`: most significant byte first. -/
def encU64 (x : Nat) : List Nat :=
  [x / 2 ^ 56 % 256, x / 2 ^ 48 % 256, x / 2 ^ 40 % 256, x / 2 ^ 32 % 256,
   x / 2 ^ 24 % 256, x / 2 ^ 16 % 256, x / 2 ^ 8 % 256, x % 256]

-- ****************************************************************************
-- Standard-type field decoders (DroneComms.cpp, decodeField_*)
-- The iterator is a cursor position `i` into the byte list `d`.
-- ****************************************************************************

/-- `decodeField_uint8`: read one byte at the cursor. -/
def readU8 (d : List Nat) (i : Nat) : Nat := d.getD i 0

/-- `decodeField_uint16`: two bytes, most significant first. -/
def readU16 (d : List Nat) (i : Nat) : Nat :=
  readU8 d i * 2 ^ 8 + readU8 d (i + 1)

/-- `decodeField_uint32`: four bytes, most significant first. -/
def readU32 (d : List Nat) (i : Nat) : Nat :=
  ((readU8 d i * 2 ^ 8 + readU8 d (i + 1)) * 2 ^ 8 + readU8 d (i + 2)) * 2 ^ 8
    + readU8 d (i + 3)

/-- `decodeField_uint64`: eight bytes, most significant first. -/
def readU64 (d : List Nat) (i : Nat) : Nat :=
  ((((((readU8 d i * 2 ^ 8 + readU8 d (i + 1)) * 2 ^ 8 + readU8 d (i + 2)) * 2 ^ 8
    + readU8 d (i + 3)) * 2 ^ 8 + readU8 d (i + 4)) * 2 ^ 8 + readU8 d (i + 5)) * 2 ^ 8
    + readU8 d (i + 6)) * 2 ^ 8 + readU8 d (i + 7)

-- ****************************************************************************
-- Compound-type field decoder: decodeField_String (DroneComms.cpp)
-- Returns (decoded character list, new cursor position, new MaxBytes).
-- `MaxBytes` is the 32-bit byte budget passed by reference in the source.
-- ****************************************************************************

/-- `decodeField_String`.  On the short-budget path the cursor advances by
`MaxBytes`; on the declared-length-too-large path the 4-byte length prefix
has already been consumed by `decodeField_uint32` before `Iter += MaxBytes`
executes, so the cursor advances by `4 + MaxBytes` in total.  The
`(size + 4)` sum is 32-bit (`unsigned int bytesForObject`). -/
def decodeField_String (d : List Nat) (pos MaxBytes : Nat) :
    List Nat × Nat × Nat :=
  if MaxBytes < 4 then ([], pos + MaxBytes, 0)
  else
    let size := readU32 d pos
    let bytesForObject := (size + 4) % 2 ^ 32
    if bytesForObject > MaxBytes then ([], pos + 4 + MaxBytes, 0)
    else ((d.drop (pos + 4)).take size, pos + 4 + size, MaxBytes - bytesForObject)

-- ****************************************************************************
-- Packet (DroneComms.cpp, DroneInterface::Packet)
-- ****************************************************************************

/-- The `Packet` object: byte buffer plus the lazily cached header fields
`m_size`, `m_PID` and their validity flag. -/
structure Packet where
  m_data : List Nat
  m_size : Nat
  m_PID : Nat
  M_highLevelFieldsValid : Bool
deriving DecidableEq

/-- `Packet::Clear`. -/
def Packet.Clear (p : Packet) : Packet :=
  { p with m_data := [], M_highLevelFieldsValid := false }

/-- Shared header-caching step of `IsFinished` / `BytesNeeded`: once at least
7 bytes are present, `m_size` and `m_PID` are parsed from offsets 2 and 6. -/
def Packet.cacheHeaderFields (p : Packet) : Packet :=
  if p.M_highLevelFieldsValid then p
  else { p with m_size := readU32 p.m_data 2, m_PID := readU8 p.m_data 6,
                M_highLevelFieldsValid := true }

/-- `Packet::BytesNeeded`.  Returns `none` below 7 bytes (the source returns
`false` and leaves the caller's `ByteCount` untouched); otherwise
`some count` with the cached-field update applied.  The count is
`m_size - uint32_t(m_data.size())` in unsigned 32-bit arithmetic. -/
def Packet.BytesNeeded (p : Packet) : Option Nat × Packet :=
  if p.m_data.length < 7 then (none, p)
  else
    let p2 := p.cacheHeaderFields
    (some ((p2.m_size % 2 ^ 32 + 2 ^ 32 - p.m_data.length % 2 ^ 32) % 2 ^ 32), p2)

/-- Loop body of `Packet::ForwardScanForSync`: scan indices starting at `i`
(the source loop runs `newHeadIndex` from 1 while `newHeadIndex + 1 <
m_data.size()`), returning the first index whose two bytes are the sync
marker 218, 167.  Structural recursion on explicit fuel so the function
evaluates inside the kernel. -/
def scanFromAux (d : List Nat) : Nat → Nat → Option Nat
  | 0, _ => none
  | fuel + 1, i =>
    if i + 1 < d.length then
      if readU8 d i == 218 && readU8 d (i + 1) == 167 then some i
      else scanFromAux d fuel (i + 1)
    else none

/-- The scan loop of `ForwardScanForSync`, starting at index 1. -/
def findSync (d : List Nat) : Option Nat := scanFromAux d d.length 1

/-- `Packet::ForwardScanForSync`. -/
def Packet.ForwardScanForSync (p : Packet) : Packet :=
  if p.m_data.isEmpty then p
  else
    match findSync p.m_data with
    | some newHeadIndex =>
      { p with m_data := p.m_data.drop newHeadIndex, M_highLevelFieldsValid := false }
    | none =>
      if p.m_data.length > 1 && p.m_data.getLastD 0 == 218 then
        { p with m_data := [218], M_highLevelFieldsValid := false }
      else
        { p with m_data := [], M_highLevelFieldsValid := false }

/-- `Packet::AddHeader`: sync field `55975` (bytes 218, 167), 4-byte size,
1-byte PID. -/
def Packet.AddHeader (p : Packet) (Size PID : Nat) : Packet :=
  { p with m_data := p.m_data ++ encU16 55975 ++ encU32 Size ++ encU8 PID }

/-- The checksum loop shared by `AddHash` and `CheckHash`:
`hashA += byte; hashB += hashA` over the list, both accumulators `uint8_t`. -/
def hashLoop : List Nat → Nat → Nat → Nat × Nat
  | [], a, b => (a, b)
  | x :: xs, a, b =>
    let a2 := (a + x) % 256
    hashLoop xs a2 ((b + a2) % 256)

/-- `Packet::AddHash`: append `hashA` then `hashB` computed over the current
buffer contents. -/
def Packet.AddHash (p : Packet) : Packet :=
  { p with m_data :=
      p.m_data ++ encU8 (hashLoop p.m_data 0 0).1 ++ encU8 (hashLoop p.m_data 0 0).2 }

/-- `Packet::CheckHash`: at least 9 bytes, advertised size equals actual
length, and the recomputed running sums match the last two bytes. -/
def Packet.CheckHash (p : Packet) : Bool :=
  if p.m_data.length < 9 then false
  else if readU32 p.m_data 2 ≠ p.m_data.length then false
  else
    (hashLoop (p.m_data.take (p.m_data.length - 2)) 0 0).1
        == readU8 p.m_data (p.m_data.length - 2) &&
    (hashLoop (p.m_data.take (p.m_data.length - 2)) 0 0).2
        == readU8 p.m_data (p.m_data.length - 1)

/-- `Packet::CheckHashSizeAndPID`. -/
def Packet.CheckHashSizeAndPID (p : Packet) (PID : Nat) : Bool :=
  p.CheckHash && readU8 p.m_data 6 == PID

/-- A fresh packet (default-constructed `Packet`). -/
def emptyPacket : Packet := ⟨[], 0, 0, false⟩

-- ****************************************************************************
-- Specification-side closed forms for the two-stage checksum, used to state
-- the checksum claims independently of the code's accumulator loop.
-- ****************************************************************************

/-- Closed form of the first checksum accumulator: sum of all bytes mod 256. -/
def hashSpecA (d : List Nat) : Nat := d.sum % 256

/-- Weighted sum where the byte at distance `k` from the end of the list
(1-based from the far end) is counted `k` times: the head of an `n`-element
list has weight `n`. -/
def weightedSum : List Nat → Nat
  | [] => 0
  | x :: xs => (xs.length + 1) * x + weightedSum xs

/-- Closed form of the second checksum accumulator: each byte weighted by the
number of loop iterations it participates in. -/
def hashSpecB (d : List Nat) : Nat := weightedSum d % 256

-- ****************************************************************************
-- Executable IEEE-754 model (binary32 / binary64 as bit patterns).
-- The source performs `double` / `float` arithmetic on field values before
-- and after the codec (radian/degree conversion, yaw wrapping); this model
-- embeds that arithmetic: round to nearest, ties to even, default quiet NaN
-- (NaN payload propagation is platform-defined and never observed by the
-- claims below).  Format parameters: binary32 has w = 8 exponent bits and
-- prec = 24 significand bits, binary64 has w = 11 and prec = 53.
-- ****************************************************************************

/-- Sign bit of a bit pattern. -/
def fpSign (w prec bits : Nat) : Nat := bits / 2 ^ (w + prec - 1) % 2

/-- Biased exponent field. -/
def fpExpF (w prec bits : Nat) : Nat := bits / 2 ^ (prec - 1) % 2 ^ w

/-- Trailing significand field. -/
def fpFrac (w prec bits : Nat) : Nat := bits % 2 ^ (prec - 1)

/-- Exponent bias. -/
def fpBias (w : Nat) : Nat := 2 ^ (w - 1) - 1

def fpIsNaN (w prec bits : Nat) : Bool :=
  fpExpF w prec bits == 2 ^ w - 1 && fpFrac w prec bits != 0

def fpIsInf (w prec bits : Nat) : Bool :=
  fpExpF w prec bits == 2 ^ w - 1 && fpFrac w prec bits == 0

def fpIsZero (w prec bits : Nat) : Bool :=
  fpExpF w prec bits == 0 && fpFrac w prec bits == 0

/-- Integral significand of a finite value: the represented number is
`(-1) ^ sign * fpMant * 2 ^ fpExp`. -/
def fpMant (w prec bits : Nat) : Nat :=
  if fpExpF w prec bits = 0 then fpFrac w prec bits
  else 2 ^ (prec - 1) + fpFrac w prec bits

/-- Exponent of the integral significand of a finite value. -/
def fpExp (w prec bits : Nat) : Int :=
  (if fpExpF w prec bits = 0 then 1 else (fpExpF w prec bits : Int))
    - fpBias w - (prec - 1)

/-- Bit pattern of an infinity of the given sign. -/
def fpInfBits (w prec s : Nat) : Nat :=
  s % 2 * 2 ^ (w + prec - 1) + (2 ^ w - 1) * 2 ^ (prec - 1)

/-- Bit pattern of a zero of the given sign. -/
def fpZeroBits (w prec s : Nat) : Nat := s % 2 * 2 ^ (w + prec - 1)

/-- Default quiet NaN of the format. -/
def fpQNaN (w prec : Nat) : Nat :=
  (2 ^ w - 1) * 2 ^ (prec - 1) + 2 ^ (prec - 2)

/-- Floor of the base-2 logarithm, by explicit fuel (structural recursion so
that the kernel can evaluate it). -/
def natLog2F : Nat → Nat → Nat
  | 0, _ => 0
  | fuel + 1, n => if n ≤ 1 then 0 else natLog2F fuel (n / 2) + 1

def natLog2 (n : Nat) : Nat := natLog2F n n

/-- Final packing step of the rounding pipeline: a rounded significand `q2`
with ulp exponent `u2` becomes a subnormal (when `q2` is below the hidden
bit), an infinity (when the biased exponent saturates), or a normal
number.  In the normal case `2 ^ (prec - 1) <= q2 < 2 ^ prec` always holds
at the call site, so `q2 % 2 ^ (prec - 1)` is the trailing significand
`q2 - 2 ^ (prec - 1)`; the modulo form makes the range of the function
self-evident. -/
def fpPack (w prec s q2 : Nat) (u2 : Int) : Nat :=
  if q2 < 2 ^ (prec - 1) then fpZeroBits w prec s + q2
  else
    if (u2 + fpBias w + (prec - 1) : Int) ≥ 2 ^ w - 1 then fpInfBits w prec s
    else
      fpZeroBits w prec s + (u2 + fpBias w + (prec - 1) : Int).toNat
        * 2 ^ (prec - 1) + q2 % 2 ^ (prec - 1)

/-- Round `(-1) ^ s * M * 2 ^ e` to the nearest representable value of the
format (ties to even) and pack it, overflowing to infinity and underflowing
through the subnormal range to signed zero.  `q` below is the significand
rounded at the target ulp `u`; by construction `q ≤ 2 ^ prec`, so after the
carry step `2 ^ (prec - 1) ≤ q2 < 2 ^ prec` holds on the normal branch of
`fpPack`. -/
def fpRoundPack (w prec s M : Nat) (e : Int) : Nat :=
  if M = 0 then fpZeroBits w prec s
  else
    let L := natLog2 M
    let emin : Int := 1 - fpBias w - (prec - 1)
    let u : Int := max (e + L - (prec - 1)) emin
    let q :=
      if e ≥ u then M * 2 ^ (u - e).natAbs
      else
        let k := (u - e).natAbs
        let t := M / 2 ^ k
        let r := M % 2 ^ k
        if 2 * r > 2 ^ k ∨ (2 * r = 2 ^ k ∧ t % 2 = 1) then t + 1 else t
    let q2 := if q = 2 ^ prec then 2 ^ (prec - 1) else q
    let u2 := if q = 2 ^ prec then u + 1 else u
    fpPack w prec s q2 u2

-- ****************************************************************************
-- binary64 arithmetic (the `double` operations the source performs)
-- ****************************************************************************

def f64IsNaN (x : Nat) : Bool := fpIsNaN 11 53 x
def f64IsInf (x : Nat) : Bool := fpIsInf 11 53 x
def f64IsZero (x : Nat) : Bool := fpIsZero 11 53 x

/-- `double` multiplication. -/
def f64mul (a b : Nat) : Nat :=
  if f64IsNaN a || f64IsNaN b then fpQNaN 11 53
  else
    let s := (fpSign 11 53 a + fpSign 11 53 b) % 2
    if f64IsInf a || f64IsInf b then
      if f64IsZero a || f64IsZero b then fpQNaN 11 53 else fpInfBits 11 53 s
    else
      fpRoundPack 11 53 s (fpMant 11 53 a * fpMant 11 53 b)
        (fpExp 11 53 a + fpExp 11 53 b)

/-- `double` division.  On the finite/finite path the quotient is computed
with `53 + 11 + log2` guard bits and a sticky bit, which determines the
round-to-nearest-even result exactly. -/
def f64div (a b : Nat) : Nat :=
  if f64IsNaN a || f64IsNaN b then fpQNaN 11 53
  else
    let s := (fpSign 11 53 a + fpSign 11 53 b) % 2
    if f64IsInf a then (if f64IsInf b then fpQNaN 11 53 else fpInfBits 11 53 s)
    else if f64IsInf b then fpZeroBits 11 53 s
    else if f64IsZero b then
      (if f64IsZero a then fpQNaN 11 53 else fpInfBits 11 53 s)
    else if f64IsZero a then fpZeroBits 11 53 s
    else
      let Ma := fpMant 11 53 a
      let Mb := fpMant 11 53 b
      let k := 64 + natLog2 Mb
      let q := Ma * 2 ^ k / Mb
      let r := Ma * 2 ^ k % Mb
      fpRoundPack 11 53 s (2 * q + (if r = 0 then 0 else 1))
        (fpExp 11 53 a - fpExp 11 53 b - k - 1)

/-- Flip the sign bit of a binary64 pattern (used for subtraction). -/
def f64neg (x : Nat) : Nat :=
  if x / 2 ^ 63 % 2 = 1 then x % 2 ^ 63 else x % 2 ^ 63 + 2 ^ 63

/-- `double` addition: the aligned exact sum is formed as an integer and then
rounded once. -/
def f64add (a b : Nat) : Nat :=
  if f64IsNaN a || f64IsNaN b then fpQNaN 11 53
  else if f64IsInf a then
    (if f64IsInf b && fpSign 11 53 a != fpSign 11 53 b then fpQNaN 11 53 else a)
  else if f64IsInf b then b
  else
    let emin : Int := min (fpExp 11 53 a) (fpExp 11 53 b)
    let Xa : Int := (if fpSign 11 53 a = 1 then -1 else 1)
      * (fpMant 11 53 a * 2 ^ (fpExp 11 53 a - emin).natAbs : Nat)
    let Xb : Int := (if fpSign 11 53 b = 1 then -1 else 1)
      * (fpMant 11 53 b * 2 ^ (fpExp 11 53 b - emin).natAbs : Nat)
    let X := Xa + Xb
    if X = 0 then
      (if fpSign 11 53 a = 1 ∧ fpSign 11 53 b = 1 then fpZeroBits 11 53 1
       else fpZeroBits 11 53 0)
    else fpRoundPack 11 53 (if X < 0 then 1 else 0) X.natAbs emin

/-- `double` subtraction `a - b = a + (-b)`. -/
def f64sub (a b : Nat) : Nat := f64add a (f64neg b)

/-- C `fmod` on `double`: exact remainder of truncated division, sign of the
dividend.  The result is always exactly representable. -/
def f64fmod (a b : Nat) : Nat :=
  if f64IsNaN a || f64IsNaN b then fpQNaN 11 53
  else if f64IsInf a || f64IsZero b then fpQNaN 11 53
  else if f64IsInf b || f64IsZero a then a
  else
    let emin : Int := min (fpExp 11 53 a) (fpExp 11 53 b)
    let X := fpMant 11 53 a * 2 ^ (fpExp 11 53 a - emin).natAbs
    let Y := fpMant 11 53 b * 2 ^ (fpExp 11 53 b - emin).natAbs
    let R := X % Y
    if R = 0 then fpZeroBits 11 53 (fpSign 11 53 a)
    else fpRoundPack 11 53 (fpSign 11 53 a) R emin

/-- `double` comparison `a < b` (false if either operand is NaN; the two
zeros compare equal). -/
def f64lt (a b : Nat) : Bool :=
  if f64IsNaN a || f64IsNaN b then false
  else if f64IsInf a then
    (if fpSign 11 53 a = 1 then !(f64IsInf b && fpSign 11 53 b == 1) else false)
  else if f64IsInf b then fpSign 11 53 b == 0
  else
    let emin : Int := min (fpExp 11 53 a) (fpExp 11 53 b)
    let Xa : Int := (if fpSign 11 53 a = 1 then -1 else 1)
      * (fpMant 11 53 a * 2 ^ (fpExp 11 53 a - emin).natAbs : Nat)
    let Xb : Int := (if fpSign 11 53 b = 1 then -1 else 1)
      * (fpMant 11 53 b * 2 ^ (fpExp 11 53 b - emin).natAbs : Nat)
    Xa < Xb

-- ****************************************************************************
-- float <-> double conversions (implicit conversions in the source) and the
-- IEEE equality used by the `operator==` implementations.
-- ****************************************************************************

/-- Widening conversion `float -> double` (exact; NaN payload shifted into
the high significand bits as on common hardware). -/
def f32to64 (x : Nat) : Nat :=
  if fpIsNaN 8 24 x then
    fpSign 8 24 x * 2 ^ 63 + (2 ^ 11 - 1) * 2 ^ 52 + fpFrac 8 24 x * 2 ^ 29
  else if fpIsInf 8 24 x then fpInfBits 11 53 (fpSign 8 24 x)
  else fpRoundPack 11 53 (fpSign 8 24 x) (fpMant 8 24 x) (fpExp 8 24 x)

/-- Narrowing conversion `double -> float` (round to nearest, ties to even;
NaN payload truncated and quieted as on common hardware). -/
def f64to32 (x : Nat) : Nat :=
  if f64IsNaN x then
    fpSign 11 53 x * 2 ^ 31 + (2 ^ 8 - 1) * 2 ^ 23 + 2 ^ 22
      + fpFrac 11 53 x / 2 ^ 29 % 2 ^ 22
  else if f64IsInf x then fpInfBits 8 24 (fpSign 11 53 x)
  else fpRoundPack 8 24 (fpSign 11 53 x) (fpMant 11 53 x) (fpExp 11 53 x)

/-- IEEE-754 `==` on binary32 bit patterns: false whenever either operand is
NaN; the only distinct bit patterns comparing equal are the two zeros. -/
def f32beq (a b : Nat) : Bool :=
  if fpIsNaN 8 24 a || fpIsNaN 8 24 b then false
  else a == b || (fpIsZero 8 24 a && fpIsZero 8 24 b)

/-- IEEE-754 `==` on binary64 bit patterns. -/
def f64beq (a b : Nat) : Bool :=
  if f64IsNaN a || f64IsNaN b then false
  else a == b || (f64IsZero a && f64IsZero b)

-- ****************************************************************************
-- Bit patterns of the floating literals appearing in DroneComms.cpp
-- ****************************************************************************

/-- Bit pattern of the `double` nearest to the literal
`#define PI 3.14159265358979`. -/
def bitsPI : Nat := 0x400921FB54442D11

/-- Bit pattern of the `double` literal `180.0`. -/
def bits180 : Nat := 0x4066800000000000

/-- Bit pattern of the `double` literal `360.0`. -/
def bits360 : Nat := 0x4076800000000000

/-- Bit pattern of the `double` literal `0.0`. -/
def bits0 : Nat := 0

-- ****************************************************************************
-- The radian/degree wire conversions of the message catalog
-- ****************************************************************************

/-- `x * 180.0 / PI` on `double` (ExecuteWaypointMission latitude and
longitude serialization). -/
def radToDegF64 (x : Nat) : Nat := f64div (f64mul x bits180) bitsPI

/-- `x * PI / 180.0` on `double` (ExecuteWaypointMission latitude and
longitude deserialization). -/
def degToRadF64 (x : Nat) : Nat := f64div (f64mul x bitsPI) bits180

/-- `float` field `x` serialized as `x * 180.0 / PI`: the `float` is promoted
to `double`, the arithmetic is `double`, the result is converted back to
`float` (GimbalPitch serialization, first step of the VirtualStickCommand
yaw pipeline). -/
def radToDegF32 (x : Nat) : Nat := f64to32 (f64div (f64mul (f32to64 x) bits180) bitsPI)

/-- `float` field decoded as `decodeField_float32(iter) * PI / 180.0` and
stored into a `float` (GimbalPitch and VirtualStickCommand yaw
deserialization). -/
def degToRadF32 (x : Nat) : Nat := f64to32 (f64div (f64mul (f32to64 x) bitsPI) bits180)

/-- The VirtualStickCommand yaw wire value: radians to degrees, then
`fmod(yaw_deg, 360.0)`, then `+ 360.0` if negative, then `- 360.0` if above
`180.0`, each step stored back into the `float yaw_deg` (so each step
rounds to binary32). -/
def vscYawToWire (y : Nat) : Nat :=
  let y1 := radToDegF32 y
  let y2 := f64to32 (f64fmod (f32to64 y1) bits360)
  let y3 := if f64lt (f32to64 y2) bits0 then f64to32 (f64add (f32to64 y2) bits360)
            else y2
  if f64lt bits180 (f32to64 y3) then f64to32 (f64sub (f32to64 y3) bits360) else y3

-- ****************************************************************************
-- Message catalog (DroneComms.cpp).  Fields hold wire-representation
-- machine values: `uintN_t` fields as `Nat` below `2 ^ N`, `float` /
-- `double` fields as their IEEE-754 bit patterns.
-- ****************************************************************************

/-- `DroneInterface::Packet_CoreTelemetry` (PID 0). -/
structure Packet_CoreTelemetry where
  IsFlying : Nat
  Latitude : Nat
  Longitude : Nat
  Altitude : Nat
  HAG : Nat
  V_N : Nat
  V_E : Nat
  V_D : Nat
  Yaw : Nat
  Pitch : Nat
  Roll : Nat
deriving DecidableEq

/-- `Packet_CoreTelemetry::Serialize`: header (size 9 + 69, PID 0), the
eleven fields in declared order (floating fields as raw bit patterns, no
unit conversion), then the checksum. -/
def Packet_CoreTelemetry.Serialize (m : Packet_CoreTelemetry) (p : Packet) :
    Packet :=
  let p1 := (p.Clear).AddHeader (9 + 69) 0
  let d :=
    p1.m_data ++ encU8 m.IsFlying ++ encU64 m.Latitude ++ encU64 m.Longitude
      ++ encU64 m.Altitude ++ encU64 m.HAG ++ encU32 m.V_N ++ encU32 m.V_E
      ++ encU32 m.V_D ++ encU64 m.Yaw ++ encU64 m.Pitch ++ encU64 m.Roll
  Packet.AddHash { p1 with m_data := d }

/-- `Packet_CoreTelemetry::Deserialize`: checksum/size/PID check, exact
length check, then field-by-field decode from offset 7 (floating fields
read back as raw bit patterns, no unit conversion). -/
def Packet_CoreTelemetry.Deserialize (m : Packet_CoreTelemetry) (p : Packet) :
    Bool × Packet_CoreTelemetry :=
  if ¬ (p.CheckHashSizeAndPID 0 = true) then (false, m)
  else if ¬ (p.m_data.length = 9 + 69) then (false, m)
  else
    (true,
      { IsFlying := readU8 p.m_data 7
        Latitude := readU64 p.m_data 8
        Longitude := readU64 p.m_data 16
        Altitude := readU64 p.m_data 24
        HAG := readU64 p.m_data 32
        V_N := readU32 p.m_data 40
        V_E := readU32 p.m_data 44
        V_D := readU32 p.m_data 48
        Yaw := readU64 p.m_data 52
        Pitch := readU64 p.m_data 60
        Roll := readU64 p.m_data 68 })

/-- `DroneInterface::Packet_VirtualStickCommand` (PID 252). -/
structure Packet_VirtualStickCommand where
  Mode : Nat
  Yaw : Nat
  V_x : Nat
  V_y : Nat
  HAG : Nat
  timeout : Nat
deriving DecidableEq

/-- `Packet_VirtualStickCommand::Serialize`: header (size 9 + 21, PID 252),
`Mode`, the wrapped degree yaw, then the remaining `float` fields raw, then
the checksum. -/
def Packet_VirtualStickCommand.Serialize (m : Packet_VirtualStickCommand)
    (p : Packet) : Packet :=
  let p1 := (p.Clear).AddHeader (9 + 21) 252
  let d :=
    p1.m_data ++ encU8 m.Mode ++ encU32 (vscYawToWire m.Yaw) ++ encU32 m.V_x
      ++ encU32 m.V_y ++ encU32 m.HAG ++ encU32 m.timeout
  Packet.AddHash { p1 with m_data := d }

/-- `Packet_VirtualStickCommand::Deserialize`: the wire yaw is converted back
by `* PI / 180.0`; the remaining fields are raw bit patterns. -/
def Packet_VirtualStickCommand.Deserialize (m : Packet_VirtualStickCommand)
    (p : Packet) : Bool × Packet_VirtualStickCommand :=
  if ¬ (p.CheckHashSizeAndPID 252 = true) then (false, m)
  else if ¬ (p.m_data.length = 9 + 21) then (false, m)
  else
    (true,
      { Mode := readU8 p.m_data 7
        Yaw := degToRadF32 (readU32 p.m_data 8)
        V_x := readU32 p.m_data 12
        V_y := readU32 p.m_data 16
        HAG := readU32 p.m_data 20
        timeout := readU32 p.m_data 24 })

/-- `DroneInterface::Waypoint` (DroneInterface.hpp): latitude/longitude
(`double`, radians), relative altitude (`double`, m), corner radius, speed,
loiter time and gimbal pitch (`float`; the last two default to quiet NaN,
the "not included" sentinel). -/
structure Waypoint where
  Latitude : Nat
  Longitude : Nat
  RelAltitude : Nat
  CornerRadius : Nat
  Speed : Nat
  LoiterTime : Nat
  GimbalPitch : Nat
deriving DecidableEq

/-- `Waypoint::operator==`: field-wise IEEE `==` comparison. -/
def Waypoint.beq (a b : Waypoint) : Bool :=
  f64beq a.Latitude b.Latitude && f64beq a.Longitude b.Longitude &&
  f64beq a.RelAltitude b.RelAltitude && f32beq a.CornerRadius b.CornerRadius &&
  f32beq a.Speed b.Speed && f32beq a.LoiterTime b.LoiterTime &&
  f32beq a.GimbalPitch b.GimbalPitch

/-- `DroneInterface::Packet_ExecuteWaypointMission` (PID 253). -/
structure Packet_ExecuteWaypointMission where
  LandAtEnd : Nat
  CurvedFlight : Nat
  Waypoints : List Waypoint
deriving DecidableEq

/-- The waypoint comparison loop of
`Packet_ExecuteWaypointMission::operator==`. -/
def waypointsEqLoop : List Waypoint → List Waypoint → Bool
  | [], [] => true
  | a :: as, b :: bs => a.beq b && waypointsEqLoop as bs
  | _, _ => false

/-- `Packet_ExecuteWaypointMission::operator==`: flag fields, waypoint count,
then element-wise `Waypoint::operator==`. -/
def Packet_ExecuteWaypointMission.beq
    (a b : Packet_ExecuteWaypointMission) : Bool :=
  a.LandAtEnd == b.LandAtEnd && a.CurvedFlight == b.CurvedFlight &&
  waypointsEqLoop a.Waypoints b.Waypoints

/-- Bytes appended for one waypoint by
`Packet_ExecuteWaypointMission::Serialize`: latitude, longitude and gimbal
pitch are converted radians -> degrees at the wire boundary; the remaining
fields are written as raw bit patterns. -/
def encodeWaypoint (w : Waypoint) : List Nat :=
  encU64 (radToDegF64 w.Latitude) ++ encU64 (radToDegF64 w.Longitude)
    ++ encU64 w.RelAltitude ++ encU32 w.CornerRadius ++ encU32 w.Speed
    ++ encU32 w.LoiterTime ++ encU32 (radToDegF32 w.GimbalPitch)

/-- The waypoint serialization loop. -/
def encodeWaypoints : List Waypoint → List Nat
  | [] => []
  | w :: ws => encodeWaypoint w ++ encodeWaypoints ws

/-- `Packet_ExecuteWaypointMission::Serialize`: header (size `9 + 2 + 40 * N`
as `uint32_t`, PID 253), the two flag bytes, the waypoint blocks, then the
checksum. -/
def Packet_ExecuteWaypointMission.Serialize
    (m : Packet_ExecuteWaypointMission) (p : Packet) : Packet :=
  let p1 := (p.Clear).AddHeader
    ((9 + 2 + 40 * (m.Waypoints.length % 2 ^ 32)) % 2 ^ 32) 253
  let d :=
    p1.m_data ++ encU8 m.LandAtEnd ++ encU8 m.CurvedFlight
      ++ encodeWaypoints m.Waypoints
  Packet.AddHash { p1 with m_data := d }

/-- One waypoint decoded from its 40-byte block starting at `pos` (loop body
of `Packet_ExecuteWaypointMission::Deserialize`): latitude, longitude and
gimbal pitch are converted degrees -> radians, the rest read raw. -/
def decodeWaypointAt (d : List Nat) (pos : Nat) : Waypoint :=
  { Latitude := degToRadF64 (readU64 d pos)
    Longitude := degToRadF64 (readU64 d (pos + 8))
    RelAltitude := readU64 d (pos + 16)
    CornerRadius := readU32 d (pos + 24)
    Speed := readU32 d (pos + 28)
    LoiterTime := readU32 d (pos + 32)
    GimbalPitch := degToRadF32 (readU32 d (pos + 36)) }

/-- The waypoint deserialization loop: `n` waypoints decoded in order from
consecutive 40-byte blocks. -/
def decodeWaypoints (d : List Nat) : Nat → Nat → List Waypoint
  | _, 0 => []
  | pos, n + 1 => decodeWaypointAt d pos :: decodeWaypoints d (pos + 40) n

/-- `Packet_ExecuteWaypointMission::Deserialize`.  Mirrors the mutation order
of the source: the checksum/size/PID and minimum-length checks come first;
then `LandAtEnd` and `CurvedFlight` are overwritten and `Waypoints` is
cleared; only then is the `waypointBytes % 40` check performed (so that
failure path leaves the partially overwritten state behind).  The byte
count is `(unsigned int) m_data.size() - 9 - 2`. -/
def Packet_ExecuteWaypointMission.Deserialize
    (m : Packet_ExecuteWaypointMission) (p : Packet) :
    Bool × Packet_ExecuteWaypointMission :=
  if ¬ (p.CheckHashSizeAndPID 253 = true) then (false, m)
  else if p.m_data.length < 9 + 2 + 40 then (false, m)
  else
    let m1 : Packet_ExecuteWaypointMission :=
      { LandAtEnd := readU8 p.m_data 7, CurvedFlight := readU8 p.m_data 8,
        Waypoints := [] }
    let waypointBytes := p.m_data.length % 2 ^ 32 - 9 - 2
    if ¬ (waypointBytes % 40 = 0) then (false, m1)
    else (true, { m1 with Waypoints := decodeWaypoints p.m_data 9 (waypointBytes / 40) })

/-- `Packet_CompressedImage::Serialize`, parameterized by the JPEG byte
stream produced by `cv::imencode` (an external library call): header with
placeholder size 0 and PID 5, the `TargetFPS` bit pattern, the JPEG bytes,
then the four size bytes at offsets 2-5 overwritten in place with
`(uint32_t) m_data.size() + 2`, and finally the checksum. -/
def Packet_CompressedImage.SerializeWith (TargetFPS : Nat) (jpeg : List Nat)
    (p : Packet) : Packet :=
  let p1 := (p.Clear).AddHeader 0 5
  let d := p1.m_data ++ encU32 TargetFPS ++ jpeg
  let packetSize := (d.length % 2 ^ 32 + 2) % 2 ^ 32
  let d2 := (((d.set 2 (packetSize / 2 ^ 24 % 256)).set 3
    (packetSize / 2 ^ 16 % 256)).set 4 (packetSize / 2 ^ 8 % 256)).set 5
    (packetSize % 256)
  Packet.AddHash { p1 with m_data := d2 }
-- ****************************************************************************
-- Specification-side predicate for the resynchronization scan
-- ****************************************************************************

/-- The sync marker 218, 167 occurs fully inside `d` starting at index `i`,
with `i` at least 1 (index 0 is deliberately skipped by the scan). -/
def syncAt (d : List Nat) (i : Nat) : Prop :=
  1 ≤ i ∧ i + 1 < d.length ∧ readU8 d i = 218 ∧ readU8 d (i + 1) = 167

instance (d : List Nat) (i : Nat) : Decidable (syncAt d i) := by
  unfold syncAt; infer_instance

-- ****************************************************************************
-- Lemmas: list reads over appends, encoder lengths, codec round trips
-- ****************************************************************************

theorem getD_append_left (a b : List Nat) (k : Nat) (h : k < a.length) :
    (a ++ b).getD k 0 = a.getD k 0 := by
  induction a generalizing k with
  | nil => simp at h
  | cons x xs ih =>
    cases k with
    | zero => rfl
    | succ n =>
      simp only [List.cons_append, List.getD_cons_succ]
      exact ih n (by simpa using h)

theorem getD_append_right (a b : List Nat) (k : Nat) :
    (a ++ b).getD (a.length + k) 0 = b.getD k 0 := by
  induction a with
  | nil => simp
  | cons x xs ih =>
    simpa [List.cons_append, Nat.succ_add] using ih

theorem readU8_append_right (a b : List Nat) (k : Nat) :
    readU8 (a ++ b) (a.length + k) = readU8 b k :=
  getD_append_right a b k

theorem readU64_append_right (a b : List Nat) (k : Nat) :
    readU64 (a ++ b) (a.length + k) = readU64 b k := by
  unfold readU64
  repeat rw [show ∀ j : Nat, a.length + k + j = a.length + (k + j) from fun j => by omega]
  simp only [readU8_append_right]

theorem readU32_append_right (a b : List Nat) (k : Nat) :
    readU32 (a ++ b) (a.length + k) = readU32 b k := by
  unfold readU32
  repeat rw [show ∀ j : Nat, a.length + k + j = a.length + (k + j) from fun j => by omega]
  simp only [readU8_append_right]

theorem length_encU8 (x : Nat) : (encU8 x).length = 1 := rfl
theorem length_encU16 (x : Nat) : (encU16 x).length = 2 := rfl
theorem length_encU32 (x : Nat) : (encU32 x).length = 4 := rfl
theorem length_encU64 (x : Nat) : (encU64 x).length = 8 := rfl

theorem readU8_encU8 (x : Nat) (r : List Nat) :
    readU8 (encU8 x ++ r) 0 = x % 256 := rfl

theorem readU32_encU32 (x : Nat) (r : List Nat) (h : x < 2 ^ 32) :
    readU32 (encU32 x ++ r) 0 = x := by
  simp only [readU32, encU32, readU8, List.cons_append, List.getD_cons_zero,
    List.getD_cons_succ, List.nil_append]
  omega

theorem readU64_encU64 (x : Nat) (r : List Nat) (h : x < 2 ^ 64) :
    readU64 (encU64 x ++ r) 0 = x := by
  simp only [readU64, encU64, readU8, List.cons_append, List.getD_cons_zero,
    List.getD_cons_succ, List.nil_append]
  omega

theorem readU32_append_left (a b : List Nat) (k : Nat) (h : k + 4 ≤ a.length) :
    readU32 (a ++ b) k = readU32 a k := by
  unfold readU32 readU8
  rw [getD_append_left a b k (by omega), getD_append_left a b (k + 1) (by omega),
    getD_append_left a b (k + 2) (by omega), getD_append_left a b (k + 3) (by omega)]

theorem readU32_encU32_mod (x : Nat) (r : List Nat) :
    readU32 (encU32 x ++ r) 0 = x % 2 ^ 32 := by
  simp only [readU32, encU32, readU8, List.cons_append, List.getD_cons_zero,
    List.getD_cons_succ, List.nil_append]
  omega

theorem readU64_encU64_mod (x : Nat) (r : List Nat) :
    readU64 (encU64 x ++ r) 0 = x % 2 ^ 64 := by
  simp only [readU64, encU64, readU8, List.cons_append, List.getD_cons_zero,
    List.getD_cons_succ, List.nil_append]
  omega

theorem readU8_lt (d : List Nat) (i : Nat) (hb : ∀ x ∈ d, x < 256) :
    readU8 d i < 256 := by
  unfold readU8
  by_cases h : i < d.length
  · rw [List.getD_eq_getElem d 0 h]
    exact hb _ (List.getElem_mem h)
  · rw [List.getD_eq_default _ _ (by omega)]
    omega

theorem readU32_lt (d : List Nat) (i : Nat) (hb : ∀ x ∈ d, x < 256) :
    readU32 d i < 2 ^ 32 := by
  have h0 := readU8_lt d i hb
  have h1 := readU8_lt d (i + 1) hb
  have h2 := readU8_lt d (i + 2) hb
  have h3 := readU8_lt d (i + 3) hb
  unfold readU32
  omega

theorem hashLoop_closed (d : List Nat) (a b : Nat) (ha : a < 256) (hb : b < 256) :
    hashLoop d a b
      = ((a + d.sum) % 256, (b + d.length * a + weightedSum d) % 256) := by
  induction d generalizing a b with
  | nil =>
    simp [hashLoop, weightedSum, Nat.mod_eq_of_lt ha, Nat.mod_eq_of_lt hb]
  | cons x xs ih =>
    unfold hashLoop
    rw [ih _ _ (Nat.mod_lt _ (by omega)) (Nat.mod_lt _ (by omega))]
    have e1 : ((a + x) % 256 + xs.sum) % 256 = (a + (x :: xs).sum) % 256 := by
      rw [Nat.mod_add_mod]
      simp [Nat.add_assoc]
    have h2 : ((a + x) % 256) ≡ a + x [MOD 256] := Nat.mod_modEq _ _
    have e2 : ((b + (a + x) % 256) % 256 + xs.length * ((a + x) % 256)
        + weightedSum xs) % 256
        = (b + (x :: xs).length * a + weightedSum (x :: xs)) % 256 := by
      have congr1 : (b + (a + x) % 256) % 256 + xs.length * ((a + x) % 256)
          + weightedSum xs
          ≡ b + (a + x) + xs.length * (a + x) + weightedSum xs [MOD 256] := by
        exact ((Nat.mod_modEq _ _).trans ((Nat.ModEq.refl b).add h2)).add
          (h2.mul_left _) |>.add_right _
      have : b + (a + x) + xs.length * (a + x) + weightedSum xs
          = b + (x :: xs).length * a + weightedSum (x :: xs) := by
        simp only [List.length_cons, weightedSum]
        ring
      exact this ▸ congr1
    rw [e1, e2]

-- ****************************************************************************
-- Claim C4 (AddHash) and Claim C5 (CheckHash)
-- ****************************************************************************

/-- Claim C4: `AddHash` appends exactly two bytes, `hashA` then `hashB`,
where the two values are the two-stage running sums over every byte already
in the buffer, modulo 256 (in closed form: the plain byte sum, and the
position-weighted byte sum); in particular a buffer holding exactly the
bytes 0, 1, 2 gains the checksum bytes 3 and 4. -/
theorem addHash_appends_two_stage_sums :
    (∀ p : Packet,
      (p.AddHash).m_data
        = p.m_data ++ [hashSpecA p.m_data, hashSpecB p.m_data]) ∧
    (Packet.AddHash ⟨[0, 1, 2], 0, 0, false⟩).m_data = [0, 1, 2, 3, 4] := by
  constructor
  · intro p
    show p.m_data ++ encU8 (hashLoop p.m_data 0 0).1
        ++ encU8 (hashLoop p.m_data 0 0).2 = _
    rw [hashLoop_closed p.m_data 0 0 (by omega) (by omega)]
    simp [encU8, hashSpecA, hashSpecB, Nat.mod_mod_of_dvd]
  · decide

/-- Claim C5: `CheckHash` returns true iff the buffer holds at least 9
bytes, the big-endian 32-bit size field at offsets 2-5 equals the buffer's
actual length, and the recomputed two-stage running sums over all bytes
except the last two equal those last two bytes. -/
theorem checkHash_iff :
    ∀ p : Packet, p.CheckHash = true ↔
      9 ≤ p.m_data.length ∧
      readU32 p.m_data 2 = p.m_data.length ∧
      hashSpecA (p.m_data.take (p.m_data.length - 2))
        = readU8 p.m_data (p.m_data.length - 2) ∧
      hashSpecB (p.m_data.take (p.m_data.length - 2))
        = readU8 p.m_data (p.m_data.length - 1) := by
  intro p
  unfold Packet.CheckHash
  split_ifs with h1 h2
  · constructor
    · intro h; cases h
    · intro h; omega
  · constructor
    · intro h; cases h
    · intro h; exact absurd h.2.1 h2
  · rw [hashLoop_closed _ 0 0 (by omega) (by omega)]
    simp only [Bool.and_eq_true, beq_iff_eq, hashSpecA, hashSpecB]
    constructor
    · intro h
      refine ⟨by omega, by omega, ?_, ?_⟩
      · simpa using h.1
      · simpa using h.2
    · intro h
      refine ⟨by simpa using h.2.2.1, by simpa using h.2.2.2⟩

-- ****************************************************************************
-- Claim C3 (decodeField_String bounded-decode failure paths)
-- ****************************************************************************

/-- Claim C3 (refuted: code bug).  On the failure path where the declared
string length plus its 4-byte prefix exceeds the remaining budget, the
cursor does not advance by exactly the remainder of the budget: the 4-byte
length prefix has already been consumed when `Iter += MaxBytes` runs, so
the cursor advances by the budget plus 4, ending past the declared
boundary.  Concretely: with 10 budgeted bytes remaining and a declared
length of 100, the decode returns the empty string and zero budget but
leaves the cursor at position 14, not 10. -/
theorem decodeField_String_overshoots_budget :
    decodeField_String [0, 0, 0, 100, 1, 2, 3, 4, 5, 6] 0 10 = ([], 14, 0) ∧
    (decodeField_String [0, 0, 0, 100, 1, 2, 3, 4, 5, 6] 0 10).2.1 = 10 + 4 := by
  constructor
  · rfl
  · rfl

-- ****************************************************************************
-- Claim C1 (round-trip exactness, refuted on NaN sentinel fields: code bug)
-- ****************************************************************************

/-- Claim C1 (refuted: code bug).  An `ExecuteWaypointMission` holding one
waypoint whose optional `LoiterTime` field is the quiet-NaN sentinel
`0x7FC00000` (the `Waypoint` default produced by `std::nanf`) serializes
and then deserializes successfully, reproducing every field bit for bit;
yet `operator==` applied to the reconstructed value (indeed, to the message
and itself) returns false, because the IEEE `==` on the NaN sentinel is
false.  The spec's round-trip equality therefore fails for sentinel
fields. -/
theorem waypointMission_nan_roundtrip_eq_fails :
    Packet_ExecuteWaypointMission.Deserialize ⟨0, 0, []⟩
        (Packet_ExecuteWaypointMission.Serialize
          ⟨0, 0, [⟨0, 0, 0, 0, 0, 0x7FC00000, 0⟩]⟩ emptyPacket)
      = (true, ⟨0, 0, [⟨0, 0, 0, 0, 0, 0x7FC00000, 0⟩]⟩) ∧
    Packet_ExecuteWaypointMission.beq ⟨0, 0, [⟨0, 0, 0, 0, 0, 0x7FC00000, 0⟩]⟩
        ⟨0, 0, [⟨0, 0, 0, 0, 0, 0x7FC00000, 0⟩]⟩ = false := by
  constructor
  · decide
  · decide

-- ****************************************************************************
-- Claim C10 (BytesNeeded and unsigned 32-bit wrap-around)
-- ****************************************************************************

/-- Claim C10: whenever at least 7 bytes are buffered, `BytesNeeded`
succeeds and reports the advertised total size minus the buffer length in
unsigned 32-bit arithmetic (the hypothesis on the cache flag states the
invariant that a valid cache holds the size parsed from offsets 2-5); in
particular a 12-byte buffer advertising a total size of 10 yields the
wrapped count `2 ^ 32 - 2` rather than zero or a negative number. -/
theorem bytesNeeded_u32_wrap :
    (∀ p : Packet, 7 ≤ p.m_data.length → (∀ x ∈ p.m_data, x < 256) →
      (p.M_highLevelFieldsValid = true → p.m_size = readU32 p.m_data 2) →
      (p.BytesNeeded).1
        = some ((readU32 p.m_data 2 + 2 ^ 32 - p.m_data.length % 2 ^ 32)
            % 2 ^ 32)) ∧
    (Packet.BytesNeeded
        ⟨[218, 167, 0, 0, 0, 10, 0, 0, 0, 0, 0, 0], 0, 0, false⟩).1
      = some (2 ^ 32 - 2) := by
  constructor
  · intro p hlen hbytes hcache
    have hsz : readU32 p.m_data 2 < 2 ^ 32 := readU32_lt _ _ hbytes
    have hmain : (p.cacheHeaderFields).m_size = readU32 p.m_data 2 := by
      unfold Packet.cacheHeaderFields
      split_ifs with h
      · exact hcache h
      · rfl
    unfold Packet.BytesNeeded
    rw [if_neg (by omega)]
    dsimp only
    rw [hmain, Nat.mod_eq_of_lt hsz]
  · decide

/-- Witness for claim C10 at a concrete buffer: a 20-byte buffer advertising
a total size of 500 still needs 480 bytes. -/
theorem bytesNeeded_u32_wrap_witness :
    7 ≤ ([218, 167, 0, 0, 1, 244, 3, 0, 0, 0, 0, 0, 0, 0, 0, 0, 0, 0, 0, 0]
      : List Nat).length ∧
    (Packet.BytesNeeded
        ⟨[218, 167, 0, 0, 1, 244, 3, 0, 0, 0, 0, 0, 0, 0, 0, 0, 0, 0, 0, 0],
          0, 0, false⟩).1
      = some ((readU32 [218, 167, 0, 0, 1, 244, 3, 0, 0, 0, 0, 0, 0, 0, 0, 0,
          0, 0, 0, 0] 2 + 2 ^ 32
            - ([218, 167, 0, 0, 1, 244, 3, 0, 0, 0, 0, 0, 0, 0, 0, 0, 0, 0, 0,
              0] : List Nat).length % 2 ^ 32) % 2 ^ 32) :=
  ⟨by decide,
    bytesNeeded_u32_wrap.1
      ⟨[218, 167, 0, 0, 1, 244, 3, 0, 0, 0, 0, 0, 0, 0, 0, 0, 0, 0, 0, 0],
        0, 0, false⟩
      (by decide) (by decide) (by intro h; cases h)⟩

-- ****************************************************************************
-- Lemmas about the resynchronization scan loop
-- ****************************************************************************

theorem scanFromAux_some (d : List Nat) (fuel i k : Nat)
    (h : scanFromAux d fuel i = some k) :
    i ≤ k ∧ k + 1 < d.length ∧ readU8 d k = 218 ∧ readU8 d (k + 1) = 167 ∧
      ∀ j, i ≤ j → j < k → ¬ (readU8 d j = 218 ∧ readU8 d (j + 1) = 167) := by
  induction fuel generalizing i with
  | zero => cases h
  | succ fuel ih =>
    unfold scanFromAux at h
    by_cases hin : i + 1 < d.length
    · rw [if_pos hin] at h
      by_cases hsync : readU8 d i == 218 && readU8 d (i + 1) == 167
      · rw [if_pos hsync] at h
        cases h
        simp only [Bool.and_eq_true, beq_iff_eq] at hsync
        exact ⟨le_refl _, hin, hsync.1, hsync.2, fun j h1 h2 _ => by omega⟩
      · rw [if_neg hsync] at h
        obtain ⟨hik, hklen, hk1, hk2, hfirst⟩ := ih (i + 1) h
        simp only [Bool.and_eq_true, beq_iff_eq, not_and] at hsync
        refine ⟨by omega, hklen, hk1, hk2, fun j hj1 hj2 hj => ?_⟩
        rcases Nat.eq_or_lt_of_le hj1 with rfl | hlt
        · exact hsync hj.1 hj.2
        · exact hfirst j hlt hj2 hj
    · rw [if_neg hin] at h
      cases h

theorem scanFromAux_none (d : List Nat) (fuel i : Nat)
    (hfuel : d.length ≤ fuel + i + 1) (h : scanFromAux d fuel i = none) :
    ∀ j, i ≤ j → j + 1 < d.length →
      ¬ (readU8 d j = 218 ∧ readU8 d (j + 1) = 167) := by
  induction fuel generalizing i with
  | zero =>
    intro j hj1 hj2
    omega
  | succ fuel ih =>
    unfold scanFromAux at h
    by_cases hin : i + 1 < d.length
    · rw [if_pos hin] at h
      by_cases hsync : readU8 d i == 218 && readU8 d (i + 1) == 167
      · rw [if_pos hsync] at h; cases h
      · rw [if_neg hsync] at h
        simp only [Bool.and_eq_true, beq_iff_eq, not_and] at hsync
        intro j hj1 hj2 hj
        rcases Nat.eq_or_lt_of_le hj1 with rfl | hlt
        · exact hsync hj.1 hj.2
        · exact ih (i + 1) (by omega) h j hlt hj2 hj
    · intro j hj1 hj2
      omega

theorem findSync_some (d : List Nat) (k : Nat) (h : findSync d = some k) :
    syncAt d k ∧ ∀ j, 1 ≤ j → j < k → ¬ syncAt d j := by
  obtain ⟨h1, h2, h3, h4, h5⟩ := scanFromAux_some d d.length 1 k h
  exact ⟨⟨h1, h2, h3, h4⟩, fun j hj1 hj2 hj => h5 j hj1 hj2 ⟨hj.2.2.1, hj.2.2.2⟩⟩

theorem findSync_none (d : List Nat) (h : findSync d = none) :
    ∀ j, ¬ syncAt d j := by
  intro j hj
  exact scanFromAux_none d d.length 1 (by omega) h j hj.1 hj.2.1
    ⟨hj.2.2.1, hj.2.2.2⟩

-- ****************************************************************************
-- Claim C2 (ForwardScanForSync), amended
-- ****************************************************************************

/-- Claim C2 as amended: for a non-empty buffer, `ForwardScanForSync`
always shrinks the buffer by at least one byte and invalidates the cached
header fields; if the sync marker occurs fully inside the buffer at some
index at least 1, everything before the first such occurrence is
discarded; otherwise, if the buffer holds AT LEAST TWO bytes (the
amendment: the source guards this branch with `m_data.size() > 1U`) and
its last byte is 218, the buffer is replaced by that single byte; in every
other case the buffer is cleared entirely. -/
theorem forwardScanForSync_characterization (p : Packet)
    (hne : p.m_data ≠ []) :
    (p.ForwardScanForSync).m_data.length < p.m_data.length ∧
    (p.ForwardScanForSync).M_highLevelFieldsValid = false ∧
    ((∃ i, syncAt p.m_data i) →
      ∃ i, syncAt p.m_data i ∧ (∀ j, 1 ≤ j → j < i → ¬ syncAt p.m_data j) ∧
        (p.ForwardScanForSync).m_data = p.m_data.drop i) ∧
    ((∀ i, ¬ syncAt p.m_data i) → 2 ≤ p.m_data.length →
      p.m_data.getLastD 0 = 218 → (p.ForwardScanForSync).m_data = [218]) ∧
    ((∀ i, ¬ syncAt p.m_data i) →
      (p.m_data.length < 2 ∨ p.m_data.getLastD 0 ≠ 218) →
      (p.ForwardScanForSync).m_data = []) := by
  have hlen0 : 0 < p.m_data.length := List.length_pos.mpr hne
  have hempty : ¬ (p.m_data.isEmpty = true) := by
    simp [List.isEmpty_iff]; exact hne
  unfold Packet.ForwardScanForSync
  rw [if_neg hempty]
  cases hfind : findSync p.m_data with
  | some k =>
    obtain ⟨hks, hfirst⟩ := findSync_some p.m_data k hfind
    refine ⟨?_, rfl, ?_, ?_, ?_⟩
    · simp only [List.length_drop]
      have := hks.1
      omega
    · intro _
      exact ⟨k, hks, hfirst, rfl⟩
    · intro hall
      exact absurd hks (hall k)
    · intro hall
      exact absurd hks (hall k)
  | none =>
    have hnone := findSync_none p.m_data hfind
    by_cases hcond : (p.m_data.length > 1 && p.m_data.getLastD 0 == 218) = true
    · rw [if_pos hcond]
      simp only [Bool.and_eq_true, decide_eq_true_eq, beq_iff_eq] at hcond
      refine ⟨by simpa using hcond.1, rfl, ?_, ?_, ?_⟩
      · intro hex
        exact absurd (hnone hex.choose) (not_not_intro hex.choose_spec)
      · intro _ _ _
        rfl
      · intro _ hd
        rcases hd with hd | hd
        · omega
        · exact absurd hcond.2 hd
    · rw [if_neg hcond]
      simp only [Bool.and_eq_true, decide_eq_true_eq, beq_iff_eq, not_and,
        not_lt] at hcond
      refine ⟨by simpa using hlen0, rfl, ?_, ?_, ?_⟩
      · intro hex
        exact absurd (hnone hex.choose) (not_not_intro hex.choose_spec)
      · intro _ h2 hlast
        exact absurd hlast (hcond (by omega))
      · intro _ _
        rfl

/-- Counterexample to claim C2 as stated: for the single-byte buffer
holding exactly 218 (the first sync byte), the marker does not occur
inside the buffer and the last byte equals 218, yet the code clears the
buffer entirely (the trailing-byte branch additionally requires at least
two bytes), contradicting the claim that the buffer is replaced by that
single trailing byte. -/
theorem forwardScanForSync_single_218_cleared :
    (∀ i, ¬ syncAt [218] i) ∧
    ([218] : List Nat).getLastD 0 = 218 ∧
    (Packet.ForwardScanForSync ⟨[218], 0, 0, false⟩).m_data = [] ∧
    (Packet.ForwardScanForSync ⟨[218], 0, 0, false⟩).m_data ≠ [218] := by
  refine ⟨?_, rfl, rfl, by decide⟩
  intro i hi
  have := hi.2.1
  simp at this

/-- Witness for claim C2 at a concrete buffer: three bytes where the sync
marker starts at index 1. -/
theorem forwardScanForSync_characterization_witness :
    (Packet.ForwardScanForSync ⟨[7, 218, 167], 0, 0, true⟩).m_data.length
        < ([7, 218, 167] : List Nat).length ∧
    (Packet.ForwardScanForSync
        ⟨[7, 218, 167], 0, 0, true⟩).M_highLevelFieldsValid = false ∧
    ((∃ i, syncAt [7, 218, 167] i) →
      ∃ i, syncAt [7, 218, 167] i ∧
        (∀ j, 1 ≤ j → j < i → ¬ syncAt [7, 218, 167] j) ∧
        (Packet.ForwardScanForSync ⟨[7, 218, 167], 0, 0, true⟩).m_data
          = ([7, 218, 167] : List Nat).drop i) ∧
    ((∀ i, ¬ syncAt [7, 218, 167] i) → 2 ≤ ([7, 218, 167] : List Nat).length →
      ([7, 218, 167] : List Nat).getLastD 0 = 218 →
      (Packet.ForwardScanForSync ⟨[7, 218, 167], 0, 0, true⟩).m_data = [218]) ∧
    ((∀ i, ¬ syncAt [7, 218, 167] i) →
      (([7, 218, 167] : List Nat).length < 2 ∨
        ([7, 218, 167] : List Nat).getLastD 0 ≠ 218) →
      (Packet.ForwardScanForSync ⟨[7, 218, 167], 0, 0, true⟩).m_data = []) :=
  forwardScanForSync_characterization ⟨[7, 218, 167], 0, 0, true⟩ (by decide)

-- ****************************************************************************
-- Claim C7 (CompressedImage deferred-size patch)
-- ****************************************************************************

theorem getD_set_self (l : List Nat) (i x : Nat) (h : i < l.length) :
    (l.set i x).getD i 0 = x := by
  simp [List.getD, List.getElem?_set_self, h]

theorem getD_set_ne (l : List Nat) (i j x : Nat) (h : i ≠ j) :
    (l.set i x).getD j 0 = l.getD j 0 := by
  simp [List.getD, List.getElem?_set_ne h]

/-- Helper: the buffer produced by `AddHash` is the old buffer with the two
checksum bytes appended. -/
theorem addHash_m_data (p : Packet) :
    (p.AddHash).m_data = p.m_data ++ [hashSpecA p.m_data, hashSpecB p.m_data] := by
  show p.m_data ++ encU8 (hashLoop p.m_data 0 0).1
      ++ encU8 (hashLoop p.m_data 0 0).2 = _
  rw [hashLoop_closed p.m_data 0 0 (by omega) (by omega)]
  simp [encU8, hashSpecA, hashSpecB, Nat.mod_mod_of_dvd]

/-- Helper: reading back a 32-bit value written in place at offsets 2-5. -/
theorem readU32_set_patch (l : List Nat) (v : Nat) (hl : 6 ≤ l.length)
    (hv : v < 2 ^ 32) (rest : List Nat) :
    readU32 (((((l.set 2 (v / 2 ^ 24 % 256)).set 3 (v / 2 ^ 16 % 256)).set 4
      (v / 2 ^ 8 % 256)).set 5 (v % 256)) ++ rest) 2 = v := by
  unfold readU32 readU8
  rw [getD_append_left _ _ 2 (by simp only [List.length_set]; omega),
    getD_append_left _ _ (2 + 1) (by simp only [List.length_set]; omega),
    getD_append_left _ _ (2 + 2) (by simp only [List.length_set]; omega),
    getD_append_left _ _ (2 + 3) (by simp only [List.length_set]; omega)]
  rw [show 2 + 1 = 3 from rfl, show 2 + 2 = 4 from rfl, show 2 + 3 = 5 from rfl]
  rw [getD_set_ne _ 5 2 _ (by omega), getD_set_ne _ 4 2 _ (by omega),
    getD_set_ne _ 3 2 _ (by omega), getD_set_self _ 2 _ (by omega)]
  rw [getD_set_ne _ 5 3 _ (by omega), getD_set_ne _ 4 3 _ (by omega),
    getD_set_self _ 3 _ (by rw [List.length_set]; omega)]
  rw [getD_set_ne _ 5 4 _ (by omega),
    getD_set_self _ 4 _ (by rw [List.length_set, List.length_set]; omega)]
  rw [getD_set_self _ 5 _
    (by rw [List.length_set, List.length_set, List.length_set]; omega)]
  omega

/-- Claim C7: after `Packet_CompressedImage::Serialize` (modelled with the
JPEG stream as an explicit byte-list parameter, since the compression
itself is an external OpenCV call), the four bytes at offsets 2-5 read as
a big-endian 32-bit integer equal the final total packet length, which is
the payload length (4 FPS bytes plus the JPEG bytes) plus 9 bytes of
header and checksum, even though a placeholder size of 0 was written
first.  The length hypothesis keeps the patched `uint32_t` value below
`2 ^ 32`. -/
theorem compressedImage_size_patch (fps : Nat) (jpeg : List Nat) (p : Packet)
    (hlen : jpeg.length + 13 < 2 ^ 32) :
    readU32 (Packet_CompressedImage.SerializeWith fps jpeg p).m_data 2
      = (Packet_CompressedImage.SerializeWith fps jpeg p).m_data.length ∧
    (Packet_CompressedImage.SerializeWith fps jpeg p).m_data.length
      = (4 + jpeg.length) + 9 := by
  unfold Packet_CompressedImage.SerializeWith Packet.AddHeader Packet.Clear
  dsimp only
  rw [addHash_m_data]
  have hdlen : (([] : List Nat) ++ encU16 55975 ++ encU32 0 ++ encU8 5
      ++ encU32 fps ++ jpeg).length = 11 + jpeg.length := by
    simp only [List.length_append, List.length_cons, List.length_nil,
      encU16, encU32, encU8]
  have hps : ((([] : List Nat) ++ encU16 55975 ++ encU32 0 ++ encU8 5
      ++ encU32 fps ++ jpeg).length % 2 ^ 32 + 2) % 2 ^ 32
      = 13 + jpeg.length := by
    rw [hdlen]; omega
  rw [hps]
  constructor
  · rw [readU32_set_patch _ _ (by rw [hdlen]; omega) (by omega)]
    simp only [List.length_append, List.length_set, List.length_cons,
      List.length_nil, encU16, encU32, encU8]
    omega
  · simp only [List.length_append, List.length_set, List.length_cons,
      List.length_nil, encU16, encU32, encU8]
    omega

/-- Witness for claim C7: a three-byte JPEG stream gives a 16-byte packet
whose size field reads 16. -/
theorem compressedImage_size_patch_witness :
    ([9, 8, 7] : List Nat).length + 13 < 2 ^ 32 ∧
    (readU32 (Packet_CompressedImage.SerializeWith 0x42AAAAAB [9, 8, 7]
        emptyPacket).m_data 2
      = (Packet_CompressedImage.SerializeWith 0x42AAAAAB [9, 8, 7]
        emptyPacket).m_data.length ∧
    (Packet_CompressedImage.SerializeWith 0x42AAAAAB [9, 8, 7]
        emptyPacket).m_data.length = (4 + ([9, 8, 7] : List Nat).length) + 9) :=
  ⟨by decide, compressedImage_size_patch 0x42AAAAAB [9, 8, 7] emptyPacket
    (by decide)⟩

-- ****************************************************************************
-- Claims C6 and C9 (ExecuteWaypointMission deserialization)
-- ****************************************************************************

/-- Helper: the waypoint decode loop visits consecutive 40-byte blocks in
order. -/
theorem decodeWaypoints_eq_map (d : List Nat) (n pos : Nat) :
    decodeWaypoints d pos n
      = (List.range n).map (fun i => decodeWaypointAt d (pos + 40 * i)) := by
  induction n generalizing pos with
  | zero => rfl
  | succ n ih =>
    rw [List.range_succ_eq_map]
    unfold decodeWaypoints
    rw [ih (pos + 40)]
    simp only [List.map_cons, List.map_map, Nat.mul_zero, Nat.add_zero,
      List.cons.injEq]
    refine ⟨trivial, ?_⟩
    apply List.map_congr_left
    intro i _
    simp only [Function.comp_apply]
    congr 1
    omega

/-- Claim C6: once `CheckHashSizeAndPID` has validated the packet (and with
the machine invariant that the buffer length fits `uint32_t`),
`Packet_ExecuteWaypointMission::Deserialize` returns false whenever the
total length is below the 51-byte minimum (9 header/checksum + 2 flags +
40 for one waypoint) or the waypoint-list byte count (length minus 11) is
not a multiple of 40; for a valid length it returns true and decodes
exactly `(length - 11) / 40` waypoints in order, the i-th from the 40-byte
block at offset `9 + 40 * i`. -/
theorem waypointMission_deserialize_length_check
    (m0 : Packet_ExecuteWaypointMission) (p : Packet)
    (hchk : p.CheckHashSizeAndPID 253 = true)
    (hlen32 : p.m_data.length < 2 ^ 32) :
    ((p.m_data.length < 51 ∨ (p.m_data.length - 11) % 40 ≠ 0) →
      (Packet_ExecuteWaypointMission.Deserialize m0 p).1 = false) ∧
    (51 ≤ p.m_data.length → (p.m_data.length - 11) % 40 = 0 →
      (Packet_ExecuteWaypointMission.Deserialize m0 p).1 = true ∧
      (Packet_ExecuteWaypointMission.Deserialize m0 p).2.Waypoints
        = (List.range ((p.m_data.length - 11) / 40)).map
            (fun i => decodeWaypointAt p.m_data (9 + 40 * i))) := by
  unfold Packet_ExecuteWaypointMission.Deserialize
  rw [if_neg (by rw [hchk]; exact fun h => h rfl)]
  rw [Nat.mod_eq_of_lt hlen32]
  constructor
  · intro hbad
    rcases hbad with hsmall | hmod
    · rw [if_pos (by omega)]
    · by_cases hsmall : p.m_data.length < 9 + 2 + 40
      · rw [if_pos hsmall]
      · rw [if_neg hsmall]
        dsimp only
        rw [if_pos (by omega)]
  · intro hge hmod
    rw [if_neg (by omega)]
    dsimp only
    rw [if_neg (by omega)]
    exact ⟨rfl, decodeWaypoints_eq_map p.m_data _ 9⟩

/-- Witness for claim C6: the serialization of a concrete single-waypoint
mission is a validated 51-byte packet which deserializes to exactly one
waypoint. -/
theorem waypointMission_deserialize_length_check_witness :
    ((Packet_ExecuteWaypointMission.Serialize
        ⟨1, 0, [⟨0, 0, 0, 0, 0, 0, 0⟩]⟩ emptyPacket).CheckHashSizeAndPID 253
      = true) ∧
    (((Packet_ExecuteWaypointMission.Serialize
        ⟨1, 0, [⟨0, 0, 0, 0, 0, 0, 0⟩]⟩ emptyPacket).m_data.length < 51 ∨
      ((Packet_ExecuteWaypointMission.Serialize
        ⟨1, 0, [⟨0, 0, 0, 0, 0, 0, 0⟩]⟩ emptyPacket).m_data.length - 11) % 40
        ≠ 0) →
      (Packet_ExecuteWaypointMission.Deserialize ⟨0, 0, []⟩
        (Packet_ExecuteWaypointMission.Serialize
          ⟨1, 0, [⟨0, 0, 0, 0, 0, 0, 0⟩]⟩ emptyPacket)).1 = false) ∧
    (51 ≤ (Packet_ExecuteWaypointMission.Serialize
        ⟨1, 0, [⟨0, 0, 0, 0, 0, 0, 0⟩]⟩ emptyPacket).m_data.length →
      ((Packet_ExecuteWaypointMission.Serialize
        ⟨1, 0, [⟨0, 0, 0, 0, 0, 0, 0⟩]⟩ emptyPacket).m_data.length - 11) % 40
        = 0 →
      (Packet_ExecuteWaypointMission.Deserialize ⟨0, 0, []⟩
        (Packet_ExecuteWaypointMission.Serialize
          ⟨1, 0, [⟨0, 0, 0, 0, 0, 0, 0⟩]⟩ emptyPacket)).1 = true ∧
      (Packet_ExecuteWaypointMission.Deserialize ⟨0, 0, []⟩
        (Packet_ExecuteWaypointMission.Serialize
          ⟨1, 0, [⟨0, 0, 0, 0, 0, 0, 0⟩]⟩ emptyPacket)).2.Waypoints
        = (List.range (((Packet_ExecuteWaypointMission.Serialize
            ⟨1, 0, [⟨0, 0, 0, 0, 0, 0, 0⟩]⟩ emptyPacket).m_data.length - 11)
              / 40)).map
            (fun i => decodeWaypointAt (Packet_ExecuteWaypointMission.Serialize
              ⟨1, 0, [⟨0, 0, 0, 0, 0, 0, 0⟩]⟩ emptyPacket).m_data
              (9 + 40 * i))) :=
  ⟨by decide,
    waypointMission_deserialize_length_check ⟨0, 0, []⟩
      (Packet_ExecuteWaypointMission.Serialize ⟨1, 0, [⟨0, 0, 0, 0, 0, 0, 0⟩]⟩
        emptyPacket) (by decide) (by decide)⟩

/-- Claim C9: when deserialization fails only because the waypoint byte
count is not a multiple of 40, the target has already been mutated: its
`LandAtEnd` and `CurvedFlight` fields hold the packet's decoded flag bytes
and its waypoint vector has been cleared, for every prior target state. -/
theorem waypointMission_deserialize_partial_mutation
    (m0 : Packet_ExecuteWaypointMission) (p : Packet)
    (hchk : p.CheckHashSizeAndPID 253 = true)
    (hlen32 : p.m_data.length < 2 ^ 32)
    (hge : 51 ≤ p.m_data.length)
    (hmod : (p.m_data.length - 11) % 40 ≠ 0) :
    Packet_ExecuteWaypointMission.Deserialize m0 p
      = (false, { LandAtEnd := readU8 p.m_data 7,
                  CurvedFlight := readU8 p.m_data 8, Waypoints := [] }) := by
  unfold Packet_ExecuteWaypointMission.Deserialize
  rw [if_neg (by rw [hchk]; exact fun h => h rfl)]
  rw [if_neg (by omega)]
  dsimp only
  rw [Nat.mod_eq_of_lt hlen32]
  rw [if_pos (by omega)]

/-- Witness for claim C9: a concrete 52-byte packet with a valid checksum,
size field and PID but a 41-byte waypoint area; the prior target state is
visibly overwritten. -/
theorem waypointMission_deserialize_partial_mutation_witness :
    ((Packet.AddHash
        ⟨[218, 167, 0, 0, 0, 52, 253] ++ List.replicate 43 7, 0, 0, false⟩
      ).CheckHashSizeAndPID 253 = true) ∧
    Packet_ExecuteWaypointMission.Deserialize ⟨1, 2, [⟨1, 2, 3, 4, 5, 6, 7⟩]⟩
        (Packet.AddHash
          ⟨[218, 167, 0, 0, 0, 52, 253] ++ List.replicate 43 7, 0, 0, false⟩)
      = (false,
          ⟨readU8 (Packet.AddHash
              ⟨[218, 167, 0, 0, 0, 52, 253] ++ List.replicate 43 7, 0, 0,
                false⟩).m_data 7,
            readU8 (Packet.AddHash
              ⟨[218, 167, 0, 0, 0, 52, 253] ++ List.replicate 43 7, 0, 0,
                false⟩).m_data 8,
            []⟩) :=
  ⟨by decide,
    waypointMission_deserialize_partial_mutation ⟨1, 2, [⟨1, 2, 3, 4, 5, 6, 7⟩]⟩
      (Packet.AddHash
        ⟨[218, 167, 0, 0, 0, 52, 253] ++ List.replicate 43 7, 0, 0, false⟩)
      (by decide) (by decide) (by decide) (by decide)⟩

-- ****************************************************************************
-- Range bounds for the IEEE model (every produced pattern fits its format)
-- ****************************************************************************

theorem fp_component_bound (w prec s E r : Nat) (hw : 0 < w) (hp : 1 < prec)
    (hs : s ≤ 1) (hE : E ≤ 2 ^ w - 1) (hr : r < 2 ^ (prec - 1)) :
    s * 2 ^ (w + prec - 1) + E * 2 ^ (prec - 1) + r < 2 ^ (w + prec) := by
  have h1 : 2 ^ (w + prec - 1) = 2 ^ w * 2 ^ (prec - 1) := by
    rw [← Nat.pow_add]
    congr 1
    omega
  have h2 : 2 ^ (w + prec) = 2 * (2 ^ w * 2 ^ (prec - 1)) := by
    rw [← Nat.pow_add, ← Nat.pow_succ']
    congr 1
    omega
  have hX : 1 ≤ 2 ^ w := Nat.one_le_two_pow
  have hP : 1 ≤ 2 ^ (prec - 1) := Nat.one_le_two_pow
  have hEP : E * 2 ^ (prec - 1) ≤ 2 ^ w * 2 ^ (prec - 1) - 2 ^ (prec - 1) := by
    calc E * 2 ^ (prec - 1) ≤ (2 ^ w - 1) * 2 ^ (prec - 1) :=
          Nat.mul_le_mul_right _ hE
      _ = 2 ^ w * 2 ^ (prec - 1) - 1 * 2 ^ (prec - 1) := by rw [Nat.sub_mul]
      _ = 2 ^ w * 2 ^ (prec - 1) - 2 ^ (prec - 1) := by rw [Nat.one_mul]
  have hs2 : s * 2 ^ (w + prec - 1) ≤ 2 ^ w * 2 ^ (prec - 1) := by
    rw [h1]
    calc s * (2 ^ w * 2 ^ (prec - 1)) ≤ 1 * (2 ^ w * 2 ^ (prec - 1)) :=
          Nat.mul_le_mul_right _ hs
      _ = 2 ^ w * 2 ^ (prec - 1) := Nat.one_mul _
  have hPA : 2 ^ (prec - 1) ≤ 2 ^ w * 2 ^ (prec - 1) :=
    Nat.le_mul_of_pos_left _ (by omega)
  rw [h2]
  omega

theorem fpZeroBits_lt (w prec s : Nat) (hw : 0 < w) (hp : 1 < prec) :
    fpZeroBits w prec s < 2 ^ (w + prec) := by
  have := fp_component_bound w prec (s % 2) 0 0 hw hp
    (Nat.le_of_lt_succ (Nat.mod_lt _ (by omega))) (by omega)
    (Nat.pos_pow_of_pos _ (by omega))
  simpa [fpZeroBits] using this

theorem fpInfBits_lt (w prec s : Nat) (hw : 0 < w) (hp : 1 < prec) :
    fpInfBits w prec s < 2 ^ (w + prec) := by
  have := fp_component_bound w prec (s % 2) (2 ^ w - 1) 0 hw hp
    (Nat.le_of_lt_succ (Nat.mod_lt _ (by omega))) le_rfl
    (Nat.pos_pow_of_pos _ (by omega))
  simpa [fpInfBits] using this

theorem fpPack_lt (w prec s q2 : Nat) (u2 : Int) (hw : 0 < w) (hp : 1 < prec) :
    fpPack w prec s q2 u2 < 2 ^ (w + prec) := by
  unfold fpPack
  split_ifs with h1 h2
  · have := fp_component_bound w prec (s % 2) 0 q2 hw hp
      (Nat.le_of_lt_succ (Nat.mod_lt _ (by omega))) (by omega) h1
    simpa [fpZeroBits] using this
  · exact fpInfBits_lt w prec s hw hp
  · have hE : (u2 + fpBias w + (prec - 1) : Int).toNat ≤ 2 ^ w - 1 := by
      have hcast : ((2 ^ w : Nat) : Int) = 2 ^ w := by push_cast; ring
      have hpow : (1 : Int) ≤ 2 ^ w := one_le_pow₀ (by omega)
      omega
    have := fp_component_bound w prec (s % 2)
      (u2 + fpBias w + (prec - 1) : Int).toNat (q2 % 2 ^ (prec - 1)) hw hp
      (Nat.le_of_lt_succ (Nat.mod_lt _ (by omega))) hE
      (Nat.mod_lt _ (Nat.pos_pow_of_pos _ (by omega)))
    simpa [fpZeroBits] using this

theorem fpRoundPack_lt (w prec s M : Nat) (e : Int) (hw : 0 < w)
    (hp : 1 < prec) : fpRoundPack w prec s M e < 2 ^ (w + prec) := by
  unfold fpRoundPack
  split_ifs with h
  · exact fpZeroBits_lt w prec s hw hp
  · exact fpPack_lt w prec s _ _ hw hp

theorem fpQNaN64_lt : fpQNaN 11 53 < 2 ^ 64 := by norm_num [fpQNaN]

theorem fpQNaN32_lt : fpQNaN 8 24 < 2 ^ 32 := by norm_num [fpQNaN]

theorem f64div_lt (a b : Nat) : f64div a b < 2 ^ 64 := by
  unfold f64div
  dsimp only
  split_ifs
  · exact fpQNaN64_lt
  · exact fpQNaN64_lt
  · exact fpInfBits_lt 11 53 _ (by omega) (by omega)
  · exact fpZeroBits_lt 11 53 _ (by omega) (by omega)
  · exact fpQNaN64_lt
  · exact fpInfBits_lt 11 53 _ (by omega) (by omega)
  · exact fpZeroBits_lt 11 53 _ (by omega) (by omega)
  · exact fpRoundPack_lt 11 53 _ _ _ (by omega) (by omega)
  · exact fpRoundPack_lt 11 53 _ _ _ (by omega) (by omega)

theorem f64mul_lt (a b : Nat) : f64mul a b < 2 ^ 64 := by
  unfold f64mul
  dsimp only
  split_ifs
  · exact fpQNaN64_lt
  · exact fpQNaN64_lt
  · exact fpInfBits_lt 11 53 _ (by omega) (by omega)
  · exact fpRoundPack_lt 11 53 _ _ _ (by omega) (by omega)

theorem f64to32_lt (x : Nat) : f64to32 x < 2 ^ 32 := by
  unfold f64to32
  split_ifs with h1 h2
  · have hs : fpSign 11 53 x ≤ 1 :=
      Nat.le_of_lt_succ (Nat.mod_lt _ (by omega))
    have hm : fpFrac 11 53 x / 2 ^ 29 % 2 ^ 22 < 2 ^ 22 :=
      Nat.mod_lt _ (by omega)
    omega
  · exact fpInfBits_lt 8 24 _ (by omega) (by omega)
  · exact fpRoundPack_lt 8 24 _ _ _ (by omega) (by omega)

theorem radToDegF64_lt (x : Nat) : radToDegF64 x < 2 ^ 64 := f64div_lt _ _

theorem degToRadF64_lt (x : Nat) : degToRadF64 x < 2 ^ 64 := f64div_lt _ _

theorem radToDegF32_lt (x : Nat) : radToDegF32 x < 2 ^ 32 := f64to32_lt _

theorem vscYawToWire_lt (y : Nat) : vscYawToWire y < 2 ^ 32 := by
  unfold vscYawToWire
  dsimp only
  split_ifs <;> exact f64to32_lt _

-- ****************************************************************************
-- Claim C8 (per-type angle-unit conventions at the wire boundary)
-- ****************************************************************************

theorem readU64_skip1 (x : Nat) (b : List Nat) (k : Nat) :
    readU64 (encU8 x ++ b) (1 + k) = readU64 b k :=
  readU64_append_right (encU8 x) b k

theorem readU64_skip2 (x : Nat) (b : List Nat) (k : Nat) :
    readU64 (encU16 x ++ b) (2 + k) = readU64 b k :=
  readU64_append_right (encU16 x) b k

theorem readU64_skip4 (x : Nat) (b : List Nat) (k : Nat) :
    readU64 (encU32 x ++ b) (4 + k) = readU64 b k :=
  readU64_append_right (encU32 x) b k

theorem readU64_skip8 (x : Nat) (b : List Nat) (k : Nat) :
    readU64 (encU64 x ++ b) (8 + k) = readU64 b k :=
  readU64_append_right (encU64 x) b k

theorem readU64_skipWp (w : Waypoint) (b : List Nat) (k : Nat) :
    readU64 (encodeWaypoint w ++ b) (40 + k) = readU64 b k := by
  have h := readU64_append_right (encodeWaypoint w) b k
  have hlen : (encodeWaypoint w).length = 40 := by
    simp [encodeWaypoint, encU64, encU32]
  rw [hlen] at h
  exact h

theorem readU32_skip1 (x : Nat) (b : List Nat) (k : Nat) :
    readU32 (encU8 x ++ b) (1 + k) = readU32 b k :=
  readU32_append_right (encU8 x) b k

theorem readU32_skip2 (x : Nat) (b : List Nat) (k : Nat) :
    readU32 (encU16 x ++ b) (2 + k) = readU32 b k :=
  readU32_append_right (encU16 x) b k

theorem readU32_skip4 (x : Nat) (b : List Nat) (k : Nat) :
    readU32 (encU32 x ++ b) (4 + k) = readU32 b k :=
  readU32_append_right (encU32 x) b k

theorem readU32_skip8 (x : Nat) (b : List Nat) (k : Nat) :
    readU32 (encU64 x ++ b) (8 + k) = readU32 b k :=
  readU32_append_right (encU64 x) b k

theorem readU32_skipWp (w : Waypoint) (b : List Nat) (k : Nat) :
    readU32 (encodeWaypoint w ++ b) (40 + k) = readU32 b k := by
  have h := readU32_append_right (encodeWaypoint w) b k
  have hlen : (encodeWaypoint w).length = 40 := by
    simp [encodeWaypoint, encU64, encU32]
  rw [hlen] at h
  exact h

/-- Helper: the latitude of the i-th serialized waypoint block sits at byte
offset `40 * i` and holds the degree-converted latitude. -/
theorem encodeWaypoints_read_lat (ws : List Waypoint) (i : Nat)
    (h : i < ws.length) (rest : List Nat) :
    readU64 (encodeWaypoints ws ++ rest) (40 * i)
      = radToDegF64 ((ws.get ⟨i, h⟩).Latitude) := by
  induction ws generalizing i with
  | nil => simp at h
  | cons w ws ih =>
    cases i with
    | zero =>
      show readU64 ((encodeWaypoint w ++ encodeWaypoints ws) ++ rest) 0 = _
      rw [List.append_assoc]
      unfold encodeWaypoint
      simp only [List.append_assoc]
      exact readU64_encU64 _ _ (radToDegF64_lt _)
    | succ i =>
      show readU64 ((encodeWaypoint w ++ encodeWaypoints ws) ++ rest) _ = _
      rw [List.append_assoc]
      rw [show 40 * (i + 1) = 40 + 40 * i from by ring]
      rw [readU64_skipWp]
      exact ih i (by simpa using h)

/-- Helper: the longitude of the i-th serialized waypoint block sits at byte
offset `40 * i + 8`. -/
theorem encodeWaypoints_read_lon (ws : List Waypoint) (i : Nat)
    (h : i < ws.length) (rest : List Nat) :
    readU64 (encodeWaypoints ws ++ rest) (40 * i + 8)
      = radToDegF64 ((ws.get ⟨i, h⟩).Longitude) := by
  induction ws generalizing i with
  | nil => simp at h
  | cons w ws ih =>
    cases i with
    | zero =>
      show readU64 ((encodeWaypoint w ++ encodeWaypoints ws) ++ rest) _ = _
      rw [List.append_assoc]
      unfold encodeWaypoint
      simp only [List.append_assoc]
      rw [show 40 * 0 + 8 = 8 + 0 from by ring, readU64_skip8]
      exact readU64_encU64 _ _ (radToDegF64_lt _)
    | succ i =>
      show readU64 ((encodeWaypoint w ++ encodeWaypoints ws) ++ rest) _ = _
      rw [List.append_assoc]
      rw [show 40 * (i + 1) + 8 = 40 + (40 * i + 8) from by ring]
      rw [readU64_skipWp]
      exact ih i (by simpa using h)

/-- Helper: the gimbal pitch of the i-th serialized waypoint block sits at
byte offset `40 * i + 36` and holds the degree-converted pitch. -/
theorem encodeWaypoints_read_gimbal (ws : List Waypoint) (i : Nat)
    (h : i < ws.length) (rest : List Nat) :
    readU32 (encodeWaypoints ws ++ rest) (40 * i + 36)
      = radToDegF32 ((ws.get ⟨i, h⟩).GimbalPitch) := by
  induction ws generalizing i with
  | nil => simp at h
  | cons w ws ih =>
    cases i with
    | zero =>
      show readU32 ((encodeWaypoint w ++ encodeWaypoints ws) ++ rest) _ = _
      rw [List.append_assoc]
      unfold encodeWaypoint
      simp only [List.append_assoc]
      rw [show 40 * 0 + 36 = 8 + (8 + (8 + (4 + (4 + (4 + 0))))) from by ring]
      rw [readU32_skip8, readU32_skip8, readU32_skip8, readU32_skip4,
        readU32_skip4, readU32_skip4]
      exact readU32_encU32 _ _ (radToDegF32_lt _)
    | succ i =>
      show readU32 ((encodeWaypoint w ++ encodeWaypoints ws) ++ rest) _ = _
      rw [List.append_assoc]
      rw [show 40 * (i + 1) + 36 = 40 + (40 * i + 36) from by ring]
      rw [readU32_skipWp]
      exact ih i (by simpa using h)

theorem decodeWaypoints_get (d : List Nat) (n pos i : Nat)
    (h : i < (decodeWaypoints d pos n).length) :
    (decodeWaypoints d pos n).get ⟨i, h⟩ = decodeWaypointAt d (pos + 40 * i) := by
  induction n generalizing pos i with
  | zero => simp [decodeWaypoints] at h
  | succ n ih =>
    cases i with
    | zero => rfl
    | succ i =>
      show (decodeWaypoints d (pos + 40) n).get ⟨i, _⟩ = _
      rw [ih (pos + 40) i (by simpa [decodeWaypoints] using h)]
      congr 1
      ring

theorem coreDeser_fields (m0 : Packet_CoreTelemetry) (p : Packet) (b : Bool)
    (m1 : Packet_CoreTelemetry)
    (h : Packet_CoreTelemetry.Deserialize m0 p = (b, m1)) (hb : b = true) :
    m1.Yaw = readU64 p.m_data 52 ∧ m1.Pitch = readU64 p.m_data 60 ∧
      m1.Roll = readU64 p.m_data 68 := by
  subst hb
  unfold Packet_CoreTelemetry.Deserialize at h
  split_ifs at h
  all_goals try (injection h with h1 h2; exact absurd h1 Bool.false_ne_true)
  injection h with h1 h2
  subst h2
  exact ⟨rfl, rfl, rfl⟩

theorem vscSer_yaw (m : Packet_VirtualStickCommand) (p : Packet) :
    readU32 (m.Serialize p).m_data 8 = vscYawToWire m.Yaw := by
  unfold Packet_VirtualStickCommand.Serialize Packet.AddHash Packet.AddHeader
    Packet.Clear
  dsimp only
  simp only [List.nil_append, List.append_assoc]
  rw [show (8 : Nat) = 2 + (4 + (1 + (1 + 0))) from rfl]
  rw [readU32_skip2, readU32_skip4, readU32_skip1, readU32_skip1]
  exact readU32_encU32 _ _ (vscYawToWire_lt _)

theorem coreSer_fields (m : Packet_CoreTelemetry) (p : Packet)
    (hy : m.Yaw < 2 ^ 64) (hp : m.Pitch < 2 ^ 64) (hr : m.Roll < 2 ^ 64) :
    readU64 (m.Serialize p).m_data 52 = m.Yaw ∧
    readU64 (m.Serialize p).m_data 60 = m.Pitch ∧
    readU64 (m.Serialize p).m_data 68 = m.Roll := by
  unfold Packet_CoreTelemetry.Serialize Packet.AddHash Packet.AddHeader
    Packet.Clear
  dsimp only
  simp only [List.nil_append, List.append_assoc]
  refine ⟨?_, ?_, ?_⟩
  · rw [show (52 : Nat)
      = 2 + (4 + (1 + (1 + (8 + (8 + (8 + (8 + (4 + (4 + (4 + 0))))))))))
      from rfl]
    rw [readU64_skip2, readU64_skip4, readU64_skip1, readU64_skip1,
      readU64_skip8, readU64_skip8, readU64_skip8, readU64_skip8,
      readU64_skip4, readU64_skip4, readU64_skip4]
    exact readU64_encU64 _ _ hy
  · rw [show (60 : Nat)
      = 2 + (4 + (1 + (1 + (8 + (8 + (8 + (8 + (4 + (4 + (4 + (8 + 0)))))))))))
      from rfl]
    rw [readU64_skip2, readU64_skip4, readU64_skip1, readU64_skip1,
      readU64_skip8, readU64_skip8, readU64_skip8, readU64_skip8,
      readU64_skip4, readU64_skip4, readU64_skip4, readU64_skip8]
    exact readU64_encU64 _ _ hp
  · rw [show (68 : Nat)
      = 2 + (4 + (1 + (1 + (8 + (8 + (8 + (8 + (4 + (4 + (4 + (8 + (8 + 0))))))))))))
      from rfl]
    rw [readU64_skip2, readU64_skip4, readU64_skip1, readU64_skip1,
      readU64_skip8, readU64_skip8, readU64_skip8, readU64_skip8,
      readU64_skip4, readU64_skip4, readU64_skip4, readU64_skip8,
      readU64_skip8]
    exact readU64_encU64 _ _ hr

theorem vscDeser_yaw (m0 : Packet_VirtualStickCommand) (p : Packet) (b : Bool)
    (m1 : Packet_VirtualStickCommand)
    (h : Packet_VirtualStickCommand.Deserialize m0 p = (b, m1))
    (hb : b = true) :
    m1.Yaw = degToRadF32 (readU32 p.m_data 8) := by
  subst hb
  unfold Packet_VirtualStickCommand.Deserialize at h
  split_ifs at h
  all_goals try (injection h with h1 h2; exact absurd h1 Bool.false_ne_true)
  injection h with h1 h2
  subst h2
  rfl

theorem ewmSer_fields (m : Packet_ExecuteWaypointMission) (p : Packet)
    (i : Nat) (h : i < m.Waypoints.length) :
    readU64 (m.Serialize p).m_data (9 + 40 * i)
      = radToDegF64 ((m.Waypoints.get ⟨i, h⟩).Latitude) ∧
    readU64 (m.Serialize p).m_data (17 + 40 * i)
      = radToDegF64 ((m.Waypoints.get ⟨i, h⟩).Longitude) ∧
    readU32 (m.Serialize p).m_data (45 + 40 * i)
      = radToDegF32 ((m.Waypoints.get ⟨i, h⟩).GimbalPitch) := by
  unfold Packet_ExecuteWaypointMission.Serialize Packet.AddHash
    Packet.AddHeader Packet.Clear
  dsimp only
  simp only [List.nil_append, List.append_assoc]
  refine ⟨?_, ?_, ?_⟩
  · rw [show 9 + 40 * i = 2 + (4 + (1 + (1 + (1 + 40 * i)))) from by ring]
    rw [readU64_skip2, readU64_skip4, readU64_skip1, readU64_skip1,
      readU64_skip1]
    exact encodeWaypoints_read_lat m.Waypoints i h _
  · rw [show 17 + 40 * i = 2 + (4 + (1 + (1 + (1 + (40 * i + 8)))))
      from by ring]
    rw [readU64_skip2, readU64_skip4, readU64_skip1, readU64_skip1,
      readU64_skip1]
    exact encodeWaypoints_read_lon m.Waypoints i h _
  · rw [show 45 + 40 * i = 2 + (4 + (1 + (1 + (1 + (40 * i + 36)))))
      from by ring]
    rw [readU32_skip2, readU32_skip4, readU32_skip1, readU32_skip1,
      readU32_skip1]
    exact encodeWaypoints_read_gimbal m.Waypoints i h _

theorem ewmDeser_fields (m0 : Packet_ExecuteWaypointMission) (p : Packet)
    (b : Bool) (m1 : Packet_ExecuteWaypointMission) (i : Nat)
    (h : Packet_ExecuteWaypointMission.Deserialize m0 p = (b, m1))
    (hb : b = true) (hi : i < m1.Waypoints.length) :
    (m1.Waypoints.get ⟨i, hi⟩).Latitude
      = degToRadF64 (readU64 p.m_data (9 + 40 * i)) ∧
    (m1.Waypoints.get ⟨i, hi⟩).Longitude
      = degToRadF64 (readU64 p.m_data (9 + 40 * i + 8)) ∧
    (m1.Waypoints.get ⟨i, hi⟩).GimbalPitch
      = degToRadF32 (readU32 p.m_data (9 + 40 * i + 36)) := by
  subst hb
  unfold Packet_ExecuteWaypointMission.Deserialize at h
  dsimp only at h
  split_ifs at h
  all_goals try (injection h with h1 h2; exact absurd h1 Bool.false_ne_true)
  injection h with h1 h2
  subst h2
  have hg := decodeWaypoints_get p.m_data
    ((p.m_data.length % 2 ^ 32 - 9 - 2) / 40) 9 i hi
  exact ⟨congrArg Waypoint.Latitude hg, congrArg Waypoint.Longitude hg,
    congrArg Waypoint.GimbalPitch hg⟩

/-- Claim C8: the per-type angle-unit treatment at the wire boundary.
`Packet_CoreTelemetry` writes Yaw, Pitch and Roll as unconverted bit
patterns (offsets 52, 60, 68) and reads them back unconverted;
`Packet_VirtualStickCommand` writes its yaw converted from radians to
degrees and wrapped into [-180, 180] by the fmod pipeline (`vscYawToWire`)
and deserializes by the inverse `* PI / 180.0` conversion;
`Packet_ExecuteWaypointMission` writes each waypoint's latitude, longitude
and gimbal pitch converted from radians to degrees and deserializes each
with the inverse conversion. -/
theorem angle_unit_conventions_per_type :
    (∀ (m : Packet_CoreTelemetry) (p : Packet),
      m.Yaw < 2 ^ 64 → m.Pitch < 2 ^ 64 → m.Roll < 2 ^ 64 →
      readU64 (m.Serialize p).m_data 52 = m.Yaw ∧
      readU64 (m.Serialize p).m_data 60 = m.Pitch ∧
      readU64 (m.Serialize p).m_data 68 = m.Roll) ∧
    (∀ (m0 : Packet_CoreTelemetry) (p : Packet) (b : Bool)
        (m1 : Packet_CoreTelemetry),
      Packet_CoreTelemetry.Deserialize m0 p = (b, m1) → b = true →
      m1.Yaw = readU64 p.m_data 52 ∧ m1.Pitch = readU64 p.m_data 60 ∧
      m1.Roll = readU64 p.m_data 68) ∧
    (∀ (m : Packet_VirtualStickCommand) (p : Packet),
      readU32 (m.Serialize p).m_data 8 = vscYawToWire m.Yaw) ∧
    (∀ (m0 : Packet_VirtualStickCommand) (p : Packet) (b : Bool)
        (m1 : Packet_VirtualStickCommand),
      Packet_VirtualStickCommand.Deserialize m0 p = (b, m1) → b = true →
      m1.Yaw = degToRadF32 (readU32 p.m_data 8)) ∧
    (∀ (m : Packet_ExecuteWaypointMission) (p : Packet) (i : Nat)
        (h : i < m.Waypoints.length),
      readU64 (m.Serialize p).m_data (9 + 40 * i)
        = radToDegF64 ((m.Waypoints.get ⟨i, h⟩).Latitude) ∧
      readU64 (m.Serialize p).m_data (17 + 40 * i)
        = radToDegF64 ((m.Waypoints.get ⟨i, h⟩).Longitude) ∧
      readU32 (m.Serialize p).m_data (45 + 40 * i)
        = radToDegF32 ((m.Waypoints.get ⟨i, h⟩).GimbalPitch)) ∧
    (∀ (m0 : Packet_ExecuteWaypointMission) (p : Packet) (b : Bool)
        (m1 : Packet_ExecuteWaypointMission) (i : Nat),
      Packet_ExecuteWaypointMission.Deserialize m0 p = (b, m1) → b = true →
      ∀ (hi : i < m1.Waypoints.length),
      (m1.Waypoints.get ⟨i, hi⟩).Latitude
        = degToRadF64 (readU64 p.m_data (9 + 40 * i)) ∧
      (m1.Waypoints.get ⟨i, hi⟩).Longitude
        = degToRadF64 (readU64 p.m_data (9 + 40 * i + 8)) ∧
      (m1.Waypoints.get ⟨i, hi⟩).GimbalPitch
        = degToRadF32 (readU32 p.m_data (9 + 40 * i + 36))) :=
  ⟨fun m p hy hp hr => coreSer_fields m p hy hp hr,
   fun m0 p b m1 h hb => coreDeser_fields m0 p b m1 h hb,
   fun m p => vscSer_yaw m p,
   fun m0 p b m1 h hb => vscDeser_yaw m0 p b m1 h hb,
   fun m p i h => ewmSer_fields m p i h,
   fun m0 p b m1 i h hb hi => ewmDeser_fields m0 p b m1 i h hb hi⟩

/-- Witness for claim C8 at concrete messages: a core-telemetry value with
raw bit-pattern fields, a zero-yaw virtual-stick command, and a
single-waypoint mission, each serialized into a fresh packet and (for the
deserialization conjuncts) decoded back. -/
theorem angle_unit_conventions_per_type_witness :
    (readU64 ((⟨1, 2, 3, 4, 5, 6, 7, 8, 9, 10, 11⟩
        : Packet_CoreTelemetry).Serialize emptyPacket).m_data 52 = 9 ∧
      readU64 ((⟨1, 2, 3, 4, 5, 6, 7, 8, 9, 10, 11⟩
        : Packet_CoreTelemetry).Serialize emptyPacket).m_data 60 = 10 ∧
      readU64 ((⟨1, 2, 3, 4, 5, 6, 7, 8, 9, 10, 11⟩
        : Packet_CoreTelemetry).Serialize emptyPacket).m_data 68 = 11) ∧
    ((⟨1, 2, 3, 4, 5, 6, 7, 8, 9, 10, 11⟩ : Packet_CoreTelemetry).Yaw
        = readU64 ((⟨1, 2, 3, 4, 5, 6, 7, 8, 9, 10, 11⟩
          : Packet_CoreTelemetry).Serialize emptyPacket).m_data 52 ∧
      (⟨1, 2, 3, 4, 5, 6, 7, 8, 9, 10, 11⟩ : Packet_CoreTelemetry).Pitch
        = readU64 ((⟨1, 2, 3, 4, 5, 6, 7, 8, 9, 10, 11⟩
          : Packet_CoreTelemetry).Serialize emptyPacket).m_data 60 ∧
      (⟨1, 2, 3, 4, 5, 6, 7, 8, 9, 10, 11⟩ : Packet_CoreTelemetry).Roll
        = readU64 ((⟨1, 2, 3, 4, 5, 6, 7, 8, 9, 10, 11⟩
          : Packet_CoreTelemetry).Serialize emptyPacket).m_data 68) ∧
    (readU32 ((⟨1, 0, 2, 3, 4, 5⟩
        : Packet_VirtualStickCommand).Serialize emptyPacket).m_data 8
      = vscYawToWire 0) ∧
    ((⟨1, 0, 2, 3, 4, 5⟩ : Packet_VirtualStickCommand).Yaw
      = degToRadF32 (readU32 ((⟨1, 0, 2, 3, 4, 5⟩
        : Packet_VirtualStickCommand).Serialize emptyPacket).m_data 8)) ∧
    (readU64 ((⟨0, 0, [⟨0, 0, 0, 0, 0, 0, 0⟩]⟩
        : Packet_ExecuteWaypointMission).Serialize emptyPacket).m_data
          (9 + 40 * 0)
        = radToDegF64 0 ∧
      readU64 ((⟨0, 0, [⟨0, 0, 0, 0, 0, 0, 0⟩]⟩
        : Packet_ExecuteWaypointMission).Serialize emptyPacket).m_data
          (17 + 40 * 0)
        = radToDegF64 0 ∧
      readU32 ((⟨0, 0, [⟨0, 0, 0, 0, 0, 0, 0⟩]⟩
        : Packet_ExecuteWaypointMission).Serialize emptyPacket).m_data
          (45 + 40 * 0)
        = radToDegF32 0) ∧
    ((0 : Nat) = degToRadF64 (readU64 ((⟨0, 0, [⟨0, 0, 0, 0, 0, 0, 0⟩]⟩
        : Packet_ExecuteWaypointMission).Serialize emptyPacket).m_data
          (9 + 40 * 0)) ∧
      (0 : Nat) = degToRadF64 (readU64 ((⟨0, 0, [⟨0, 0, 0, 0, 0, 0, 0⟩]⟩
        : Packet_ExecuteWaypointMission).Serialize emptyPacket).m_data
          (9 + 40 * 0 + 8)) ∧
      (0 : Nat) = degToRadF32 (readU32 ((⟨0, 0, [⟨0, 0, 0, 0, 0, 0, 0⟩]⟩
        : Packet_ExecuteWaypointMission).Serialize emptyPacket).m_data
          (9 + 40 * 0 + 36))) := by
  refine ⟨?_, ?_, ?_, ?_, ?_, ?_⟩
  · exact angle_unit_conventions_per_type.1 ⟨1, 2, 3, 4, 5, 6, 7, 8, 9, 10, 11⟩
      emptyPacket (by decide) (by decide) (by decide)
  · exact angle_unit_conventions_per_type.2.1 ⟨0, 0, 0, 0, 0, 0, 0, 0, 0, 0, 0⟩
      ((⟨1, 2, 3, 4, 5, 6, 7, 8, 9, 10, 11⟩
        : Packet_CoreTelemetry).Serialize emptyPacket) true
      ⟨1, 2, 3, 4, 5, 6, 7, 8, 9, 10, 11⟩ (by decide) rfl
  · exact angle_unit_conventions_per_type.2.2.1 ⟨1, 0, 2, 3, 4, 5⟩ emptyPacket
  · exact angle_unit_conventions_per_type.2.2.2.1 ⟨9, 9, 9, 9, 9, 9⟩
      ((⟨1, 0, 2, 3, 4, 5⟩
        : Packet_VirtualStickCommand).Serialize emptyPacket) true
      ⟨1, 0, 2, 3, 4, 5⟩ (by decide) rfl
  · exact angle_unit_conventions_per_type.2.2.2.2.1
      ⟨0, 0, [⟨0, 0, 0, 0, 0, 0, 0⟩]⟩ emptyPacket 0 (by decide)
  · exact angle_unit_conventions_per_type.2.2.2.2.2 ⟨7, 7, []⟩
      ((⟨0, 0, [⟨0, 0, 0, 0, 0, 0, 0⟩]⟩
        : Packet_ExecuteWaypointMission).Serialize emptyPacket) true
      ⟨0, 0, [⟨0, 0, 0, 0, 0, 0, 0⟩]⟩ 0 (by decide) rfl (by decide)
